import Mathlib

/-!
# ParkEasy: the admin pages' list view-models

A shallow embedding of `static/js/Users.js` and `static/js/Admin_Dashboard.js`, and of the
`logout` of `static/js/Admin_Summary.js`.

* A Vue component's `data()` is a structure; a method is a function from the state
  (and the outcome of the request it makes) to the next state and the effects it had.
* A computed property is a function of the state. `filteredUsers` sorts with
  `Array.prototype.sort`, which works in place, so it also returns the state it leaves;
  `changePage`, whose guard reads it through `totalPages`, goes on from that state.
* What the browser supplies and the repository does not define (lower-casing, date
  parsing, locale formatting, number parsing) is a field of `Host`; theorems hold for
  every host.
* Numbers are integers (ids, counts, millisecond instants, page numbers).
-/

namespace ParkEasy

/-! ## Strings -/

/-- ECMAScript `WhiteSpace` and `LineTerminator` code points, the ones `trim` and
`parseInt` strip. -/
def isWhiteSpace (c : Char) : Bool :=
  let n := c.toNat
  n == 0x09 || n == 0x0A || n == 0x0B || n == 0x0C || n == 0x0D || n == 0x20 ||
  n == 0xA0 || n == 0x1680 || (0x2000 ≤ n && n ≤ 0x200A) || n == 0x2028 || n == 0x2029 ||
  n == 0x202F || n == 0x205F || n == 0x3000 || n == 0xFEFF

/-- `String.prototype.trim`: white space removed from both ends. -/
def trim (s : String) : String :=
  ⟨((s.data.dropWhile isWhiteSpace).reverse.dropWhile isWhiteSpace).reverse⟩

/-- Truthiness of a string: every string but the empty one. -/
def truthy (s : String) : Bool :=
  !s.data.isEmpty

/-- `s.includes(q)`: `q` occurs in `s` as a contiguous run of characters. -/
def includes (s q : String) : Bool :=
  s.data.tails.any (fun t => q.data.isPrefixOf t)

/-- Lower-casing of the ASCII letters, other characters kept. -/
def asciiLower (s : String) : String :=
  ⟨s.data.map Char.toLower⟩

/-! ## The host -/

/-- The functions of the JavaScript runtime that the pages call and whose results depend
on the engine, the locale or the time zone. An instant is a number of milliseconds since
the epoch; `none` is an invalid date. -/
structure Host where
  /-- `String.prototype.toLowerCase`. -/
  toLowerCase : String → String
  /-- `new Date(text)`, as the instant it denotes. -/
  parseDate : String → Option Int
  /-- `Date.prototype.toLocaleDateString` of a valid date. -/
  toLocaleDateString : Int → String
  /-- `Date.prototype.toDateString` of a valid date. -/
  toDateString : Int → String
  /-- `String(date)` of a valid date. -/
  dateToString : Int → String
  /-- `JSON.stringify(parseFloat(text))`. -/
  parseFloatJson : String → String

/-! ## Values, comparison and string coercion -/

/-- The values that a record field, a sort key or a CSV cell can hold. -/
inductive JSValue where
  | undefined
  | number (n : Int)
  | string (s : String)
  | date (t : Option Int)
  deriving DecidableEq, Repr

/-- `ToPrimitive` with hint number followed by `ToNumber`, `none` for `NaN`. It is applied
to a pair of operands that are not both strings. A string operand would be read as a
number literal; the records below give each field one type, so a string key only ever
meets a string or `undefined`, and the comparison is false whatever the string converts to:
the model answers `NaN` for it. -/
def toNumber : JSValue → Option Int
  | .undefined => none
  | .number n => some n
  | .string _ => none
  | .date t => t

/-- The UTF-16 code units of a string, which is what JavaScript compares. -/
def utf16 (s : String) : List Nat :=
  s.data.foldr (fun c acc =>
    if c.toNat < 0x10000 then c.toNat :: acc
    else (0xD800 + (c.toNat - 0x10000) / 0x400) :: (0xDC00 + (c.toNat - 0x10000) % 0x400) :: acc) []

/-- Lexicographic order on code units: a proper prefix comes first. -/
def lexLess : List Nat → List Nat → Bool
  | _, [] => false
  | [], _ :: _ => true
  | a :: as, b :: bs => decide (a < b) || (a == b && lexLess as bs)

/-- The relational operator `a < b`: two strings compare lexicographically, anything else
numerically, and a comparison with `NaN` is false. -/
def jsLess (a b : JSValue) : Bool :=
  match a, b with
  | .string s, .string t => lexLess (utf16 s) (utf16 t)
  | _, _ =>
    match toNumber a, toNumber b with
    | some x, some y => decide (x < y)
    | _, _ => false

/-- The relational operator `a > b`, which is `b < a`. -/
def jsGreater (a b : JSValue) : Bool :=
  jsLess b a

/-- String coercion, as a template literal does it. -/
def toStringJS (host : Host) : JSValue → String
  | .undefined => "undefined"
  | .number n => toString n
  | .string s => s
  | .date none => "Invalid Date"
  | .date (some t) => host.dateToString t

/-- `new Date(v)`. -/
def newDate (host : Host) : JSValue → JSValue
  | .undefined => .date none
  | .number n => .date (some n)
  | .string s => .date (host.parseDate s)
  | .date t => .date t

/-! ## `Array.prototype.sort`

The comparator of `filteredUsers` is handed to the engine's sort. The model is the path V8
takes for an array of fewer than 64 elements: the leading run is detected (and reversed
when it descends), then each remaining element is placed by binary insertion. Longer arrays
are cut into such runs and merged; for a consistent comparator every conforming engine
returns the same array. -/

/-- The loop of `CountAndMakeRun`: how many further elements continue the run. -/
def countRun {α : Type} (cmp : α → α → Int) (descending : Bool) (prev : α) : List α → Nat
  | [] => 0
  | cur :: rest =>
    let order := cmp cur prev
    if descending then
      if order ≥ 0 then 0 else countRun cmp descending cur rest + 1
    else
      if order < 0 then 0 else countRun cmp descending cur rest + 1

/-- `CountAndMakeRun`: the leading run, made ascending, and the elements after it. -/
def countAndMakeRun {α : Type} (cmp : α → α → Int) : List α → List α × List α
  | [] => ([], [])
  | [a] => ([a], [])
  | a0 :: a1 :: rest =>
    let descending := decide (cmp a1 a0 < 0)
    let runLength := countRun cmp descending a1 rest + 2
    let run := (a0 :: a1 :: rest).take runLength
    (if descending then run.reverse else run, (a0 :: a1 :: rest).drop runLength)

/-- The binary search of `BinaryInsertionSort` for the place of `pivot` in `arr`
between `left` and `right`. -/
def findInsertionPoint {α : Type} (cmp : α → α → Int) (pivot : α) (arr : List α) :
    Nat → Nat → Nat → Nat
  | 0, left, _ => left
  | fuel + 1, left, right =>
    if left < right then
      let mid := left + (right - left) / 2
      match arr[mid]? with
      | none => left
      | some x =>
        if cmp pivot x < 0 then findInsertionPoint cmp pivot arr fuel left mid
        else findInsertionPoint cmp pivot arr fuel (mid + 1) right
    else left

/-- `BinaryInsertionSort`: the elements of `pending` are inserted one by one into the
sorted front part. -/
def binaryInsertionSort {α : Type} (cmp : α → α → Int) : List α → List α → List α
  | sorted, [] => sorted
  | sorted, pivot :: rest =>
    let p := findInsertionPoint cmp pivot sorted sorted.length 0 sorted.length
    binaryInsertionSort cmp (sorted.take p ++ pivot :: sorted.drop p) rest

/-- `array.sort(cmp)`: the sorted array, which is also the new content of `array`. -/
def arraySort {α : Type} (cmp : α → α → Int) (l : List α) : List α :=
  binaryInsertionSort cmp (countAndMakeRun cmp l).1 (countAndMakeRun cmp l).2

/-! ## `Users.js` -/

/-- A user record as the backend (and the fallback data of `fetchUsers`) supplies it.
`full_name` and `address` may be missing. -/
structure User where
  id : Int
  username : String
  full_name : Option String
  pincode : String
  address : Option String
  created_at : String
  email : Option String
  deriving DecidableEq, Repr

/-- The two directions of `sortOrder`, the strings `'asc'` and `'desc'`. -/
inductive SortOrder where
  | asc
  | desc
  deriving DecidableEq, Repr

/-- The `data()` of the users page. -/
structure UsersState where
  users : List User
  searchTerm : String
  selectedUser : Option User
  currentPage : Int
  itemsPerPage : Nat
  sortField : String
  sortOrder : SortOrder
  todayRegistrations : Int
  weekRegistrations : Int
  deriving DecidableEq, Repr

/-- The state `data()` returns. -/
def UsersState.initial : UsersState :=
  { users := [], searchTerm := "", selectedUser := none, currentPage := 1, itemsPerPage := 10,
    sortField := "created_at", sortOrder := .desc, todayRegistrations := 0,
    weekRegistrations := 0 }

/-- A missing property reads as `undefined`. -/
def optString : Option String → JSValue
  | none => .undefined
  | some s => .string s

/-- Property access `user[field]`. -/
def User.get (u : User) (field : String) : JSValue :=
  if field = "id" then .number u.id
  else if field = "username" then .string u.username
  else if field = "full_name" then optString u.full_name
  else if field = "pincode" then .string u.pincode
  else if field = "address" then optString u.address
  else if field = "created_at" then .string u.created_at
  else if field = "email" then optString u.email
  else .undefined

/-- The value the comparator compares: `user[sortField]`, wrapped in `new Date` when the
field is `created_at` (lines 32 to 38). -/
def sortKey (host : Host) (sortField : String) (u : User) : JSValue :=
  if sortField = "created_at" then newDate host (u.get sortField) else u.get sortField

/-- The comparator handed to `sort` (lines 31 to 41). -/
def compareUsers (host : Host) (sortField : String) (sortOrder : SortOrder) (a b : User) : Int :=
  let aVal := sortKey host sortField a
  let bVal := sortKey host sortField b
  match sortOrder with
  | .asc => if jsGreater aVal bVal then 1 else -1
  | .desc => if jsLess aVal bVal then 1 else -1

/-- The predicate of the `filter` call (lines 23 to 28); `?.` on a missing field gives
`undefined`, which counts as false. -/
def userMatches (host : Host) (query : String) (user : User) : Bool :=
  (match user.full_name with
    | some n => includes (host.toLowerCase n) query
    | none => false) ||
  includes (host.toLowerCase user.username) query ||
  includes user.pincode query ||
  (match user.address with
    | some a => includes (host.toLowerCase a) query
    | none => false)

/-- The computed property `filteredUsers`: the array it returns and the state it leaves.
With a blank search term `filtered` is the array `this.users` itself, and `sort` sorts it
in place; otherwise `filter` has made a new array. -/
def filteredUsers (host : Host) (s : UsersState) : List User × UsersState :=
  if truthy (trim s.searchTerm) then
    let query := host.toLowerCase s.searchTerm
    let filtered := s.users.filter (userMatches host query)
    (arraySort (compareUsers host s.sortField s.sortOrder) filtered, s)
  else
    let sorted := arraySort (compareUsers host s.sortField s.sortOrder) s.users
    (sorted, { s with users := sorted })

/-- The computed property `totalPages`, `Math.ceil(length / itemsPerPage)`, for a page
size of at least 1. -/
def totalPages (host : Host) (s : UsersState) : Nat :=
  ((filteredUsers host s).1.length + s.itemsPerPage - 1) / s.itemsPerPage

/-- The computed property `paginatedUsers`: `slice(start, start + itemsPerPage)`, for a
current page of at least 1. -/
def paginatedUsers (host : Host) (s : UsersState) : List User :=
  let start := (s.currentPage.toNat - 1) * s.itemsPerPage
  ((filteredUsers host s).1.drop start).take s.itemsPerPage

/-- The computed property `visiblePages`: the loop pushes `start`, `start + 1`, and so on
up to `end`. -/
def visiblePages (host : Host) (s : UsersState) : List Int :=
  let start := max 1 (s.currentPage - 2)
  let stop := min (totalPages host s : Int) (s.currentPage + 2)
  (List.range (stop - start + 1).toNat).map (fun (i : Nat) => start + (i : Int))

/-- The method `sortBy`. -/
def sortBy (s : UsersState) (field : String) : UsersState :=
  let s1 :=
    if s.sortField = field then
      { s with sortOrder := if s.sortOrder = .asc then .desc else .asc }
    else
      { s with sortField := field, sortOrder := .asc }
  { s1 with currentPage := 1 }

/-- The method `changePage`. A page below 1 ends the guard at its first test. For any
other page the guard reads `this.totalPages`, which reads `this.filteredUsers`; that getter
sorts in place, so the method goes on from the state `filteredUsers` leaves. -/
def changePage (host : Host) (s : UsersState) (page : Int) : UsersState :=
  if page ≥ 1 then
    if page ≤ (totalPages host s : Int) then
      { (filteredUsers host s).2 with currentPage := page }
    else (filteredUsers host s).2
  else s

/-- The assignment to `searchTerm` that the search box makes. -/
def setSearchTerm (s : UsersState) (text : String) : UsersState :=
  { s with searchTerm := text }

/-- The method `calculateStats` of the users page; `now` is the instant of the call. -/
def calculateStats (host : Host) (now : Int) (s : UsersState) : UsersState :=
  let weekAgo := now - 7 * 24 * 60 * 60 * 1000
  let dateString (t : Option Int) : String :=
    match t with
    | some i => host.toDateString i
    | none => "Invalid Date"
  { s with
    todayRegistrations :=
      ((s.users.filter (fun user =>
        dateString (host.parseDate user.created_at) == host.toDateString now)).length : Int)
    weekRegistrations :=
      ((s.users.filter (fun user =>
        match host.parseDate user.created_at with
        | some t => decide (t ≥ weekAgo)
        | none => false)).length : Int) }

/-- What the request of `fetchUsers` can come back with. -/
inductive UsersResponse where
  /-- An object with `users` and `statistics`. -/
  | withStatistics (users : List User) (today week : Int)
  /-- A bare array of users. -/
  | array (users : List User)
  /-- Any other JSON value but `null`. -/
  | other
  /-- The request or the JSON parsing failed, or the body is `null` (reading `data.users`
  then throws inside the promise chain, which ends in the same `catch`). -/
  | failed

/-- The placeholder records of the `catch` branch (lines 80 to 99). -/
def fallbackUsers : List User :=
  [ { id := 1, username := "john_doe", full_name := some "John Doe", pincode := "400001",
      address := some "123 Main Street, Mumbai", created_at := "2024-01-15T10:30:00Z",
      email := some "john@example.com" },
    { id := 2, username := "jane_smith", full_name := some "Jane Smith", pincode := "400002",
      address := some "456 Park Avenue, Mumbai", created_at := "2024-01-16T14:20:00Z",
      email := some "jane@example.com" } ]

/-- The method `fetchUsers`, given the outcome of its request. -/
def fetchUsers (host : Host) (now : Int) (s : UsersState) : UsersResponse → UsersState
  | .withStatistics users today week =>
    { s with users := users, todayRegistrations := today, weekRegistrations := week }
  | .array users => calculateStats host now { s with users := users }
  | .other => calculateStats host now { s with users := [] }
  | .failed => calculateStats host now { s with users := fallbackUsers }

/-- The method `formatDate`. -/
def formatDate (host : Host) (dateString : String) : String :=
  if truthy dateString then
    match host.parseDate dateString with
    | some t => host.toLocaleDateString t
    | none => "Invalid Date"
  else "N/A"

/-- The header row of the export (line 174). -/
def csvHeaders : List JSValue :=
  [.string "S.No.", .string "Full Name", .string "Username", .string "Pincode",
   .string "Address", .string "Registered Date"]

/-- One data row of the export (lines 175 to 182); `index` counts from 0. -/
def csvRow (host : Host) (index : Nat) (user : User) : List JSValue :=
  [ .number ((index : Int) + 1),
    (match user.full_name with
      | some n => if truthy n then .string n else .string "N/A"
      | none => .string "N/A"),
    .string user.username,
    .string user.pincode,
    optString user.address,
    .string (formatDate host user.created_at) ]

/-- A field wrapped in double quotes, the template of line 183. -/
def quoteField (host : Host) (field : JSValue) : String :=
  "\"" ++ toStringJS host field ++ "\""

/-- A row as a line of text: the quoted fields joined by commas. -/
def csvLine (host : Host) (row : List JSValue) : String :=
  ",".intercalate (row.map (quoteField host))

/-- The method `generateCSV`. -/
def generateCSV (host : Host) (s : UsersState) : String :=
  let rows := s.users.enum.map (fun p => csvRow host p.1 p.2)
  "\n".intercalate ((csvHeaders :: rows).map (csvLine host))

/-! ## `Admin_Dashboard.js` -/

/-- A parking space of a lot, with the `status` letter that `fetchLots` adds. -/
structure Spot where
  id : Int
  is_reserved : Bool
  status : Option String
  deriving DecidableEq, Repr

/-- A parking lot record. The spots and the three counts are the ones `fetchLots` attaches;
they are missing before. Numbers that are only ever shown or copied are kept as text. -/
structure Lot where
  id : Int
  lot_name : String
  address : String
  pincode : String
  price_per_hour : String
  number_of_spots : String
  spots : Option (List Spot)
  total_spots : Option Int
  occupied_spots : Option Int
  available_spots : Option Int
  deriving DecidableEq, Repr

/-- The object behind the lot dialog. It has no `id` in create mode; in edit mode it is a
copy of the lot, of which only these properties are read. -/
structure LotForm where
  id : Option Int
  lot_name : String
  address : String
  pincode : String
  price_per_hour : String
  number_of_spots : String
  deriving DecidableEq, Repr

/-- The `data()` of the lot dashboard. -/
structure DashboardState where
  lots : List Lot
  searchTerm : String
  lotForm : LotForm
  isEditMode : Bool
  selectedSpot : Option Spot
  totalSpots : Int
  occupiedSpots : Int
  deriving DecidableEq, Repr

/-- The empty form of `data()`, `openLotModal(false)` and `resetForm`. -/
def LotForm.blank : LotForm :=
  { id := none, lot_name := "", address := "", pincode := "", price_per_hour := "",
    number_of_spots := "" }

/-- The state `data()` returns. -/
def DashboardState.initial : DashboardState :=
  { lots := [], searchTerm := "", lotForm := LotForm.blank, isEditMode := false,
    selectedSpot := none, totalSpots := 0, occupiedSpots := 0 }

/-- The predicate of the `filter` call of `filteredLots` (lines 25 to 28). -/
def lotMatches (host : Host) (query : String) (lot : Lot) : Bool :=
  includes (host.toLowerCase lot.lot_name) query || includes lot.pincode query

/-- The computed property `filteredLots`. -/
def filteredLots (host : Host) (s : DashboardState) : List Lot :=
  if !truthy (trim s.searchTerm) then s.lots
  else
    let query := host.toLowerCase s.searchTerm
    s.lots.filter (lotMatches host query)

/-- The value of a digit in the given radix, if the character is one. -/
def digitValue (radix : Nat) (c : Char) : Option Nat :=
  let v :=
    if c.isDigit then c.toNat - 48
    else if 97 ≤ c.toNat ∧ c.toNat ≤ 122 then c.toNat - 87
    else if 65 ≤ c.toNat ∧ c.toNat ≤ 90 then c.toNat - 55
    else radix
  if v < radix then some v else none

/-- `parseInt(text)` without a radix argument: leading white space is skipped, a sign and
a `0x` mark are read, then the longest run of digits; `none` is `NaN`. -/
def parseInt (text : String) : Option Int :=
  let cs := text.data.dropWhile isWhiteSpace
  let signed : Int × List Char :=
    match cs with
    | '-' :: r => (-1, r)
    | '+' :: r => (1, r)
    | _ => (1, cs)
  let based : Nat × List Char :=
    match signed.2 with
    | '0' :: 'x' :: r => (16, r)
    | '0' :: 'X' :: r => (16, r)
    | r => (10, r)
  let digits := (based.2.takeWhile (fun c => (digitValue based.1 c).isSome)).filterMap
    (digitValue based.1)
  if digits.isEmpty then none
  else some (signed.1 * ((digits.foldl (fun acc d => acc * based.1 + d) 0 : Nat) : Int))

/-- The JSON body of the save request (lines 87 to 93). -/
structure LotPayload where
  lot_name : String
  address : String
  pincode : String
  price_per_hour : String
  number_of_spots : Int
  deriving DecidableEq, Repr

/-- What a method of a page does besides changing the state. -/
inductive Effect where
  | alert (message : String)
  | request (method url : String) (body : Option LotPayload)
  | hideModal (element : String)
  | consoleError
  /-- A call of `this.fetchLots()`. -/
  | reload
  /-- A `confirm` dialog put to the user. -/
  | confirm (message : String)
  /-- An assignment to `window.location.href`. -/
  | redirect (url : String)
  /-- A rejected promise that no handler takes: the error leaves the method. -/
  | unhandledRejection
  deriving DecidableEq, Repr

/-- What the save request can come back with. -/
inductive SaveResponse where
  /-- An OK status and a JSON body. -/
  | ok
  /-- An OK status and a body that is not JSON. -/
  | okNoJson
  /-- A status that is not OK. -/
  | notOk
  /-- The request failed in transport. -/
  | failed
  deriving DecidableEq, Repr

/-- The method `resetForm`. -/
def resetForm (s : DashboardState) : DashboardState :=
  { s with lotForm := LotForm.blank }

/-- The method `saveLot`, given the outcome of the request (which is looked at only when
the request is made): the state it leaves and its effects in order. -/
def saveLot (host : Host) (s : DashboardState) (response : SaveResponse) :
    DashboardState × List Effect :=
  let url :=
    if s.isEditMode then
      "/admin/lots/" ++ (match s.lotForm.id with
        | some i => toString i
        | none => "undefined")
    else "/admin/lots"
  let method := if s.isEditMode then "PUT" else "POST"
  match parseInt s.lotForm.number_of_spots with
  | none => (s, [.alert "Please enter a valid number of spots"])
  | some spots =>
    if spots < 1 then (s, [.alert "Please enter a valid number of spots"])
    else
      let payload : LotPayload :=
        { lot_name := s.lotForm.lot_name, address := s.lotForm.address,
          pincode := s.lotForm.pincode,
          price_per_hour := host.parseFloatJson s.lotForm.price_per_hour,
          number_of_spots := spots }
      let sent := Effect.request method url (some payload)
      match response with
      | .ok =>
        (resetForm s, [sent, .alert "Lot saved successfully", .hideModal "lotModal", .reload])
      | _ => (s, [sent, .consoleError, .alert "Error saving lot"])

/-- What a request whose body is not read can come back with. -/
inductive RequestOutcome where
  /-- A response with an OK status. -/
  | ok
  /-- A response with a status that is not OK. -/
  | notOk
  /-- The request failed in transport. -/
  | failed
  deriving DecidableEq, Repr

/-- The method `deleteLot`, given the answer of the user to the dialog and the outcome of
the request (looked at only when the request is made). The promise chain has a `then` and
no `catch`. -/
def deleteLot (s : DashboardState) (id : Int) (confirmed : Bool) (response : RequestOutcome) :
    DashboardState × List Effect :=
  let asked := Effect.confirm "Are you sure you want to delete this parking lot?"
  if !confirmed then (s, [asked])
  else
    let sent := Effect.request "DELETE" ("/admin/lots/" ++ toString id) none
    match response with
    | .ok => (s, [asked, sent, .reload])
    | .notOk => (s, [asked, sent, .alert "Cannot delete lot. Make sure all spots are empty."])
    | .failed => (s, [asked, sent, .unhandledRejection])

/-- What the request for the spots of one lot can come back with. -/
inductive SpotsResponse where
  /-- An OK status and the spots as the backend describes them. -/
  | ok (spots : List Spot)
  /-- A status that is not OK. -/
  | notOk
  /-- The request failed in transport. -/
  | failed
  deriving DecidableEq, Repr

/-- What the request of `fetchLots` can come back with: the lots, each with the outcome
that its spots request is going to have, or a failure (in transport, or a body that is not
JSON). -/
inductive LotsResponse where
  | ok (lots : List (Lot × SpotsResponse))
  | failed
  deriving DecidableEq, Repr

/-- The body of the loop of `fetchLots` for one lot (lines 39 to 54). The spots stored on
the lot are copies with a `status` letter; the two filters run over `spots`, the array as
received. A failed request throws at the `await`, before anything is assigned. -/
def enrichLot (lot : Lot) : SpotsResponse → Lot
  | .ok spots =>
    { lot with
      spots := some (spots.map (fun s =>
        { s with status := some (if s.is_reserved then "O" else "A") }))
      total_spots := some (spots.length : Int)
      occupied_spots := some ((spots.filter (fun s => s.status == some "O")).length : Int)
      available_spots := some ((spots.filter (fun s => s.status == some "A")).length : Int) }
  | .notOk =>
    { lot with spots := some [], total_spots := some 0, occupied_spots := some 0,
               available_spots := some 0 }
  | .failed => lot

/-- The loop of `fetchLots` over the lots in order: the lots it leaves, and whether it ran
to its end. A spots request that fails in transport ends it; the lots after that one stay
as received. -/
def enrichLots : List (Lot × SpotsResponse) → List Lot × Bool
  | [] => ([], true)
  | (lot, .failed) :: rest => (lot :: rest.map Prod.fst, false)
  | (lot, response) :: rest =>
    (enrichLot lot response :: (enrichLots rest).1, (enrichLots rest).2)

/-- The spots requests the loop makes, up to the first that fails in transport. -/
def spotRequests : List (Lot × SpotsResponse) → List Effect
  | [] => []
  | (lot, .failed) :: _ => [.request "GET" ("/admin/spots/" ++ toString lot.id) none]
  | (lot, _) :: rest =>
    .request "GET" ("/admin/spots/" ++ toString lot.id) none :: spotRequests rest

/-- The method `calculateStats` of the dashboard; `count || 0` is 0 for a missing count. -/
def DashboardState.calculateStats (s : DashboardState) : DashboardState :=
  { s with
    totalSpots := s.lots.foldl (fun sum lot => sum + lot.total_spots.getD 0) 0
    occupiedSpots := s.lots.foldl (fun sum lot => sum + lot.occupied_spots.getD 0) 0 }

/-- The method `fetchLots`, given the outcome of its requests. The promise chain has no
`catch`. -/
def fetchLots (s : DashboardState) : LotsResponse → DashboardState × List Effect
  | .failed => (s, [.request "GET" "/admin/lots" none, .unhandledRejection])
  | .ok answers =>
    let sent := Effect.request "GET" "/admin/lots" none :: spotRequests answers
    let loaded := { s with lots := (enrichLots answers).1 }
    if (enrichLots answers).2 then (loaded.calculateStats, sent)
    else (loaded, sent ++ [.unhandledRejection])

/-- The method `calculateDuration`; `now` is the instant of the call. A text that is not a
date gives `NaN` for every number. -/
def calculateDuration (host : Host) (now : Int) (ts : Option String) : String :=
  match ts with
  | none => "N/A"
  | some text =>
    if !truthy text then "N/A"
    else
      match host.parseDate text with
      | none => "NaNh NaNm"
      | some start =>
        let diff := (now - start) / 60000
        if diff < 60 then toString diff ++ " min"
        else toString (diff / 60) ++ "h " ++ toString (diff % 60) ++ "m"

/-! ## `logout` on the three admin pages -/

/-- The method `logout` of `Users.js`. -/
def Users.logout (response : RequestOutcome) : List Effect :=
  Effect.request "POST" "/logout" none ::
    match response with
    | .ok => [.redirect "/"]
    | .notOk => [.redirect "/"]
    | .failed => [.redirect "/"]

/-- The method `logout` of `Admin_Dashboard.js`. -/
def AdminDashboard.logout (response : RequestOutcome) : List Effect :=
  Effect.request "POST" "/logout" none ::
    match response with
    | .ok => [.redirect "/"]
    | .notOk => [.alert "Logout failed. Please try again."]
    | .failed => [.consoleError, .redirect "/"]

/-- The function `logout` of `Admin_Summary.js` (lines 281 to 294). -/
def AdminSummary.logout (response : RequestOutcome) : List Effect :=
  Effect.request "POST" "/logout" none ::
    match response with
    | .ok => [.redirect "/"]
    | .notOk => []
    | .failed => [.consoleError, .redirect "/"]

/-! ## A host to evaluate with -/

/-- The number a run of decimal digits denotes, if the characters are all digits. -/
def decimal (cs : List Char) : Option Nat :=
  if cs.all Char.isDigit ∧ cs ≠ [] then some (cs.foldl (fun acc c => acc * 10 + (c.toNat - 48)) 0)
  else none

/-- Days from 1970-01-01 to the given day of the proleptic Gregorian calendar. -/
def daysFromCivil (y m d : Nat) : Int :=
  let a := (14 - m) / 12
  let y1 := y + 4800 - a
  let m1 := m + 12 * a - 3
  ((d + (153 * m1 + 2) / 5 + 365 * y1 + y1 / 4 + y1 / 400 : Nat) : Int) - (y1 / 100 : Nat) - 32045
    - 2440588

/-- The instant of a date-time string of the form `YYYY-MM-DDTHH:mm:ssZ`. -/
def parseIsoUtc (text : String) : Option Int :=
  match text.data with
  | [y1, y2, y3, y4, '-', m1, m2, '-', d1, d2, 'T', h1, h2, ':', n1, n2, ':', s1, s2, 'Z'] =>
    match decimal [y1, y2, y3, y4], decimal [m1, m2], decimal [d1, d2], decimal [h1, h2],
      decimal [n1, n2], decimal [s1, s2] with
    | some y, some m, some d, some h, some n, some sec =>
      if 1 ≤ m ∧ m ≤ 12 ∧ 1 ≤ d ∧ d ≤ 31 ∧ h < 24 ∧ n < 60 ∧ sec < 60 then
        some ((daysFromCivil y m d * 86400 + ((h * 3600 + n * 60 + sec : Nat) : Int)) * 1000)
      else none
    | _, _, _, _, _, _ => none
  | _ => none

/-- A host for evaluating the pages on concrete data: ASCII lower-casing, the UTC
date-time format above, a date shown as its count of days since the epoch, an amount sent
as typed. -/
def sampleHost : Host :=
  { toLowerCase := asciiLower
    parseDate := parseIsoUtc
    toLocaleDateString := fun t => toString (t / 86400000)
    toDateString := fun t => toString (t / 86400000)
    dateToString := fun t => toString t
    parseFloatJson := fun text => text }

/-! ## The notions the statements use -/

/-- The text contains the term as a case-insensitive substring: the lower-cased text
includes the lower-cased term. -/
def containsIgnoringCase (host : Host) (text term : String) : Bool :=
  includes (host.toLowerCase text) (host.toLowerCase term)

/-- A search term is blank when trimming leaves nothing of it. -/
def isBlank (term : String) : Bool :=
  !truthy (trim term)

/-- The users the search keeps: all of them for a blank term, otherwise the ones the
`filter` predicate accepts for the lower-cased term. -/
def userSelected (host : Host) (term : String) (user : User) : Bool :=
  isBlank term || userMatches host (host.toLowerCase term) user

/-- The bound `[1, max(1, totalPages)]` on the current page. -/
def pageInRange (host : Host) (s : UsersState) : Prop :=
  1 ≤ s.currentPage ∧ s.currentPage ≤ max 1 (totalPages host s : Int)

/-- The states of the users page that `sortBy`, `changePage`, an edit of the search term
and `fetchUsers` lead to from the initial one. -/
inductive Reachable (host : Host) : UsersState → Prop where
  | start : Reachable host UsersState.initial
  | afterSortBy {s : UsersState} (field : String) :
      Reachable host s → Reachable host (sortBy s field)
  | afterChangePage {s : UsersState} (page : Int) :
      Reachable host s → Reachable host (changePage host s page)
  | afterSearch {s : UsersState} (text : String) :
      Reachable host s → Reachable host (setSearchTerm s text)
  | afterFetch {s : UsersState} (now : Int) (response : UsersResponse) :
      Reachable host s → Reachable host (fetchUsers host now s response)

/-! ## Data for the evaluations -/

/-- A lot with no space in its name or pincode. -/
def centralLot : Lot :=
  { id := 1, lot_name := "Central", address := "1 Station Road", pincode := "400001",
    price_per_hour := "50", number_of_spots := "10", spots := none, total_spots := none,
    occupied_spots := none, available_spots := none }

/-- The dashboard holding that lot, with a single space typed into the search box. -/
def spaceSearchDashboard : DashboardState :=
  { DashboardState.initial with lots := [centralLot], searchTerm := " " }

/-- A user with no space in any searched field. -/
def ashaUser : User :=
  { id := 3, username := "asha", full_name := some "Asha", pincode := "400003",
    address := none, created_at := "2024-01-17T09:00:00Z", email := none }

/-- The users page holding that user, with a single space typed into the search box. -/
def spaceSearchUsers : UsersState :=
  { UsersState.initial with users := [ashaUser], searchTerm := " " }

/-- The users page after a `fetchUsers` whose request failed: the two placeholder records,
an empty search box, sorting by `created_at`, newest first. -/
def failedFetchState : UsersState :=
  fetchUsers sampleHost 1705500000000 UsersState.initial .failed

/-- Eleven users, which fill more than one page of ten; none has a `z` in a searched
field. -/
def elevenUsers : List User :=
  (List.range 11).map (fun i => { ashaUser with id := (i : Int) })

/-- The users page after the steps: the eleven users are fetched, page 2 is opened, then
`zzz` is typed into the search box. -/
def strandedState : UsersState :=
  setSearchTerm
    (changePage sampleHost
      (fetchUsers sampleHost 1705500000000 UsersState.initial (.array elevenUsers)) 2)
    "zzz"

/-- The two placeholder users with one and the same pincode, John first. -/
def tiedUsers : List User :=
  fallbackUsers.map (fun u => { u with pincode := "400001" })

/-- The users page holding them, searched for `mumbai` (which both addresses contain) and
sorted by pincode, ascending. -/
def tiedState : UsersState :=
  { UsersState.initial with
    users := tiedUsers, searchTerm := "mumbai", sortField := "pincode", sortOrder := .asc }

/-- A text between double quotes. -/
def quoted (text : String) : String :=
  "\"" ++ text ++ "\""

/-- The dashboard with the create dialog filled in and `0` as the number of spots. -/
def zeroSpotsDashboard : DashboardState :=
  { DashboardState.initial with
    lots := [centralLot]
    lotForm :=
      { id := none, lot_name := "North", address := "2 Mill Lane", pincode := "400002",
        price_per_hour := "40", number_of_spots := "0" } }

/-- The dashboard with the create dialog filled in and `10` as the number of spots. -/
def validFormDashboard : DashboardState :=
  { zeroSpotsDashboard with
    lotForm := { zeroSpotsDashboard.lotForm with number_of_spots := "10" } }

/-- Two spots as a backend describes them by `is_reserved` alone: the first is reserved,
the second is free. -/
def twoSpots : List Spot :=
  [ { id := 1, is_reserved := true, status := none },
    { id := 2, is_reserved := false, status := none } ]

/-- The users page after the eleven users are fetched. -/
def elevenUsersState : UsersState :=
  fetchUsers sampleHost 1705500000000 UsersState.initial (.array elevenUsers)

/-! ## The sort: it permutes, and it orders when the comparator is an order -/

theorem getElem?_drop_cons {α : Type} :
    ∀ (arr : List α) (mid : Nat) (x : α), arr[mid]? = some x →
      arr.drop mid = x :: arr.drop (mid + 1)
  | [], _, _, h => by simp at h
  | a :: as, 0, x, h => by
    simp at h
    simp [h]
  | a :: as, mid + 1, x, h => by
    simp at h
    simpa using getElem?_drop_cons as mid x h

theorem getElem?_take_succ {α : Type} :
    ∀ (arr : List α) (mid : Nat) (x : α), arr[mid]? = some x →
      arr.take (mid + 1) = arr.take mid ++ [x]
  | [], _, _, h => by simp at h
  | a :: as, 0, x, h => by
    simp at h
    simp [h]
  | a :: as, mid + 1, x, h => by
    simp at h
    simpa using getElem?_take_succ as mid x h

theorem binaryInsertionSort_perm {α : Type} (cmp : α → α → Int) :
    ∀ (pending sorted : List α), (binaryInsertionSort cmp sorted pending).Perm (sorted ++ pending)
  | [], sorted => by simp [binaryInsertionSort]
  | pivot :: rest, sorted => by
    rw [binaryInsertionSort]
    refine (binaryInsertionSort_perm cmp rest _).trans ?_
    have h1 : (List.take (findInsertionPoint cmp pivot sorted sorted.length 0 sorted.length) sorted
        ++ pivot :: List.drop (findInsertionPoint cmp pivot sorted sorted.length 0 sorted.length)
          sorted).Perm (pivot :: sorted) := by
      refine List.perm_middle.trans ?_
      rw [List.take_append_drop]
    refine (List.Perm.append_right rest h1).trans ?_
    simpa using (@List.perm_middle _ pivot sorted rest).symm

theorem countAndMakeRun_perm {α : Type} (cmp : α → α → Int) (l : List α) :
    ((countAndMakeRun cmp l).1 ++ (countAndMakeRun cmp l).2).Perm l := by
  match l with
  | [] => simp [countAndMakeRun]
  | [a] => simp [countAndMakeRun]
  | a0 :: a1 :: rest =>
    simp only [countAndMakeRun]
    split
    · refine (List.Perm.append_right _ (List.reverse_perm _)).trans ?_
      rw [List.take_append_drop]
    · rw [List.take_append_drop]

theorem arraySort_perm {α : Type} (cmp : α → α → Int) (l : List α) :
    (arraySort cmp l).Perm l :=
  (binaryInsertionSort_perm cmp _ _).trans (countAndMakeRun_perm cmp l)

theorem arraySort_length {α : Type} (cmp : α → α → Int) (l : List α) :
    (arraySort cmp l).length = l.length :=
  (arraySort_perm cmp l).length_eq

theorem mem_arraySort {α : Type} (cmp : α → α → Int) (l : List α) (x : α) :
    x ∈ arraySort cmp l ↔ x ∈ l :=
  (arraySort_perm cmp l).mem_iff

theorem findInsertionPoint_spec {α : Type} (cmp : α → α → Int) (r : α → α → Prop)
    (P : α → Prop) (htrans : ∀ x y z, r x y → r y z → r x z)
    (hlt : ∀ x y, P x → P y → cmp x y < 0 → r x y)
    (hge : ∀ x y, P x → P y → ¬ cmp x y < 0 → r y x)
    (pivot : α) (arr : List α) (hpivot : P pivot) (harr : ∀ y ∈ arr, P y)
    (hsorted : arr.Pairwise r) :
    ∀ (fuel left right : Nat), right - left ≤ fuel → left ≤ right → right ≤ arr.length →
      (∀ y ∈ arr.take left, r y pivot) → (∀ y ∈ arr.drop right, r pivot y) →
      (∀ y ∈ arr.take (findInsertionPoint cmp pivot arr fuel left right), r y pivot) ∧
      (∀ y ∈ arr.drop (findInsertionPoint cmp pivot arr fuel left right), r pivot y)
  | 0, left, right, hfuel, hlr, _, hleft, hright => by
    have : left = right := by omega
    subst this
    exact ⟨hleft, hright⟩
  | fuel + 1, left, right, hfuel, hlr, hlen, hleft, hright => by
    rw [findInsertionPoint]
    by_cases hlt' : left < right
    · simp only [hlt', if_true]
      have hmid : left + (right - left) / 2 < right := by omega
      have hmidlen : left + (right - left) / 2 < arr.length := by omega
      have hget : arr[left + (right - left) / 2]? = some arr[left + (right - left) / 2] :=
        List.getElem?_eq_getElem hmidlen
      rw [hget]
      simp only
      have hx : P arr[left + (right - left) / 2] := harr _ (List.getElem_mem _)
      have hsplit := List.take_append_drop (left + (right - left) / 2) arr
      have hdrop := getElem?_drop_cons arr _ _ hget
      have htake := getElem?_take_succ arr _ _ hget
      have hpw : (arr.take (left + (right - left) / 2) ++
          arr[left + (right - left) / 2] :: arr.drop (left + (right - left) / 2 + 1)).Pairwise r := by
        rw [← hdrop, hsplit]
        exact hsorted
      rw [List.pairwise_append] at hpw
      obtain ⟨_, hpw2, hpw3⟩ := hpw
      rw [List.pairwise_cons] at hpw2
      by_cases hc : cmp pivot arr[left + (right - left) / 2] < 0
      · simp only [hc, if_true]
        refine findInsertionPoint_spec cmp r P htrans hlt hge pivot arr hpivot harr hsorted fuel
          left _ (by omega) (by omega) (by omega) hleft ?_
        intro y hy
        rw [hdrop, List.mem_cons] at hy
        have hpx := hlt _ _ hpivot hx hc
        rcases hy with rfl | hy
        · exact hpx
        · exact htrans _ _ _ hpx (hpw2.1 y hy)
      · simp only [hc, if_false]
        refine findInsertionPoint_spec cmp r P htrans hlt hge pivot arr hpivot harr hsorted fuel
          _ right (by omega) (by omega) hlen ?_ hright
        intro y hy
        rw [htake, List.mem_append, List.mem_singleton] at hy
        have hxp := hge _ _ hpivot hx hc
        rcases hy with hy | rfl
        · exact htrans _ _ _ (hpw3 y hy _ (List.mem_cons_self _ _)) hxp
        · exact hxp
    · simp only [hlt', if_false]
      have : left = right := by omega
      subst this
      exact ⟨hleft, hright⟩

theorem binaryInsertionSort_pairwise {α : Type} (cmp : α → α → Int) (r : α → α → Prop)
    (P : α → Prop) (htrans : ∀ x y z, r x y → r y z → r x z)
    (hlt : ∀ x y, P x → P y → cmp x y < 0 → r x y)
    (hge : ∀ x y, P x → P y → ¬ cmp x y < 0 → r y x) :
    ∀ (pending sorted : List α), (∀ y ∈ pending, P y) → (∀ y ∈ sorted, P y) →
      sorted.Pairwise r → (binaryInsertionSort cmp sorted pending).Pairwise r
  | [], sorted, _, _, hs => by simpa [binaryInsertionSort] using hs
  | pivot :: rest, sorted, hp, hq, hs => by
    rw [binaryInsertionSort]
    have hpivot : P pivot := hp pivot (List.mem_cons_self _ _)
    obtain ⟨h1, h2⟩ := findInsertionPoint_spec cmp r P htrans hlt hge pivot sorted hpivot hq hs
      sorted.length 0 sorted.length (by omega) (by omega) (by omega) (by simp) (by simp)
    refine binaryInsertionSort_pairwise cmp r P htrans hlt hge rest _
      (fun y hy => hp y (List.mem_cons_of_mem _ hy)) ?_ ?_
    · intro y hy
      rw [List.mem_append, List.mem_cons] at hy
      rcases hy with hy | rfl | hy
      · exact hq y (List.mem_of_mem_take hy)
      · exact hpivot
      · exact hq y (List.mem_of_mem_drop hy)
    · have hsplit : (sorted.take (findInsertionPoint cmp pivot sorted sorted.length 0 sorted.length)
          ++ sorted.drop (findInsertionPoint cmp pivot sorted sorted.length 0 sorted.length)).Pairwise
            r := by
        rw [List.take_append_drop]
        exact hs
      rw [List.pairwise_append] at hsplit
      obtain ⟨ht, hd, htd⟩ := hsplit
      rw [List.pairwise_append, List.pairwise_cons]
      refine ⟨ht, ⟨h2, hd⟩, ?_⟩
      intro a ha b hb
      rw [List.mem_cons] at hb
      rcases hb with rfl | hb
      · exact h1 a ha
      · exact htd a ha b hb

theorem countRun_descending {α : Type} (cmp : α → α → Int) (r : α → α → Prop)
    (P : α → Prop) (htrans : ∀ x y z, r x y → r y z → r x z)
    (hlt : ∀ x y, P x → P y → cmp x y < 0 → r x y) :
    ∀ (rest : List α) (prev : α), P prev → (∀ y ∈ rest, P y) →
      (prev :: rest.take (countRun cmp true prev rest)).Pairwise (fun a b => r b a)
  | [], prev, _, _ => by simp [countRun]
  | cur :: rest, prev, hprev, hrest => by
    rw [countRun]
    simp only [if_true]
    by_cases hc : cmp cur prev ≥ 0
    · simp [hc]
    · simp only [hc, if_false, List.take_succ_cons]
      have hcur : P cur := hrest cur (List.mem_cons_self _ _)
      have ih := countRun_descending cmp r P htrans hlt rest cur hcur
        (fun y hy => hrest y (List.mem_cons_of_mem _ hy))
      have hcp : r cur prev := hlt _ _ hcur hprev (by omega)
      rw [List.pairwise_cons]
      refine ⟨?_, ih⟩
      intro y hy
      rw [List.mem_cons] at hy
      rcases hy with rfl | hy
      · exact hcp
      · exact htrans _ _ _ ((List.pairwise_cons.1 ih).1 y hy) hcp

theorem countRun_ascending {α : Type} (cmp : α → α → Int) (r : α → α → Prop)
    (P : α → Prop) (htrans : ∀ x y z, r x y → r y z → r x z)
    (hge : ∀ x y, P x → P y → ¬ cmp x y < 0 → r y x) :
    ∀ (rest : List α) (prev : α), P prev → (∀ y ∈ rest, P y) →
      (prev :: rest.take (countRun cmp false prev rest)).Pairwise r
  | [], prev, _, _ => by simp [countRun]
  | cur :: rest, prev, hprev, hrest => by
    rw [countRun]
    simp only [Bool.false_eq_true, if_false]
    by_cases hc : cmp cur prev < 0
    · simp [hc]
    · simp only [hc, if_false, List.take_succ_cons]
      have hcur : P cur := hrest cur (List.mem_cons_self _ _)
      have ih := countRun_ascending cmp r P htrans hge rest cur hcur
        (fun y hy => hrest y (List.mem_cons_of_mem _ hy))
      have hpc : r prev cur := hge _ _ hcur hprev hc
      rw [List.pairwise_cons]
      refine ⟨?_, ih⟩
      intro y hy
      rw [List.mem_cons] at hy
      rcases hy with rfl | hy
      · exact hpc
      · exact htrans _ _ _ hpc ((List.pairwise_cons.1 ih).1 y hy)

theorem countAndMakeRun_pairwise {α : Type} (cmp : α → α → Int) (r : α → α → Prop)
    (P : α → Prop) (htrans : ∀ x y z, r x y → r y z → r x z)
    (hlt : ∀ x y, P x → P y → cmp x y < 0 → r x y)
    (hge : ∀ x y, P x → P y → ¬ cmp x y < 0 → r y x)
    (l : List α) (hl : ∀ y ∈ l, P y) : (countAndMakeRun cmp l).1.Pairwise r := by
  match l, hl with
  | [], _ => simp [countAndMakeRun]
  | [a], _ => simp [countAndMakeRun]
  | a0 :: a1 :: rest, hl =>
    have h0 : P a0 := hl a0 (by simp)
    have h1 : P a1 := hl a1 (by simp)
    have hrest : ∀ y ∈ rest, P y := fun y hy => hl y (by simp [hy])
    simp only [countAndMakeRun, List.take_succ_cons]
    by_cases hc : cmp a1 a0 < 0
    · simp only [hc, decide_True, if_true]
      rw [List.pairwise_reverse]
      have ih := countRun_descending cmp r P htrans hlt rest a1 h1 hrest
      have h10 : r a1 a0 := hlt _ _ h1 h0 hc
      rw [List.pairwise_cons]
      refine ⟨?_, ih⟩
      intro y hy
      rw [List.mem_cons] at hy
      rcases hy with rfl | hy
      · exact h10
      · exact htrans _ _ _ ((List.pairwise_cons.1 ih).1 y hy) h10
    · simp only [hc, decide_False, Bool.false_eq_true, if_false]
      have ih := countRun_ascending cmp r P htrans hge rest a1 h1 hrest
      have h01 : r a0 a1 := hge _ _ h1 h0 hc
      rw [List.pairwise_cons]
      refine ⟨?_, ih⟩
      intro y hy
      rw [List.mem_cons] at hy
      rcases hy with rfl | hy
      · exact h01
      · exact htrans _ _ _ h01 ((List.pairwise_cons.1 ih).1 y hy)

/-- When, on the elements of `l`, a negative comparison means `r x y` and any other result
means `r y x`, and `r` is transitive, the sorted array is ordered by `r`. -/
theorem arraySort_pairwise {α : Type} (cmp : α → α → Int) (r : α → α → Prop)
    (P : α → Prop) (htrans : ∀ x y z, r x y → r y z → r x z)
    (hlt : ∀ x y, P x → P y → cmp x y < 0 → r x y)
    (hge : ∀ x y, P x → P y → ¬ cmp x y < 0 → r y x)
    (l : List α) (hl : ∀ y ∈ l, P y) : (arraySort cmp l).Pairwise r := by
  have hperm := countAndMakeRun_perm cmp l
  refine binaryInsertionSort_pairwise cmp r P htrans hlt hge _ _ ?_ ?_
    (countAndMakeRun_pairwise cmp r P htrans hlt hge l hl)
  · intro y hy
    exact hl y (hperm.mem_iff.1 (List.mem_append_right _ hy))
  · intro y hy
    exact hl y (hperm.mem_iff.1 (List.mem_append_left _ hy))

theorem lexLess_irrefl : ∀ a : List Nat, lexLess a a = false
  | [] => rfl
  | a :: as => by simp [lexLess, lexLess_irrefl as]

theorem lexLess_asymm : ∀ a b : List Nat, lexLess a b = true → lexLess b a = false
  | _, [], h => by simp [lexLess] at h
  | [], _ :: _, _ => by simp [lexLess]
  | a :: as, b :: bs, h => by
    simp only [lexLess, Bool.or_eq_true, decide_eq_true_eq, Bool.and_eq_true, beq_iff_eq] at h
    simp only [lexLess, Bool.or_eq_false_iff, decide_eq_false_iff_not, Bool.and_eq_false_imp,
      beq_iff_eq]
    rcases h with h | ⟨h1, h2⟩
    · exact ⟨by omega, fun hba => by omega⟩
    · exact ⟨by omega, fun _ => lexLess_asymm as bs h2⟩

theorem lexLess_trans : ∀ a b c : List Nat, lexLess a b = true → lexLess b c = true →
    lexLess a c = true
  | _, _, [], _, h => by simp [lexLess] at h
  | _, [], _ :: _, h, _ => by simp [lexLess] at h
  | [], _ :: _, _ :: _, _, _ => by simp [lexLess]
  | a :: as, b :: bs, c :: cs, h1, h2 => by
    simp only [lexLess, Bool.or_eq_true, decide_eq_true_eq, Bool.and_eq_true, beq_iff_eq] at *
    rcases h1 with h1 | ⟨h1, h1'⟩ <;> rcases h2 with h2 | ⟨h2, h2'⟩
    · left; omega
    · left; omega
    · left; omega
    · right; exact ⟨by omega, lexLess_trans as bs cs h1' h2'⟩

theorem jsLess_asymm (a b : JSValue) (h : jsLess a b = true) : jsLess b a = false := by
  cases a <;> cases b <;> simp [jsLess, toNumber] at h ⊢
  · omega
  · rename_i n t
    cases t <;> simp at h ⊢
    omega
  · exact lexLess_asymm _ _ h
  · rename_i t n
    cases t <;> simp at h ⊢
    omega
  · rename_i t u
    cases t <;> cases u <;> simp at h ⊢
    omega

theorem jsLess_trans (a b c : JSValue) (h1 : jsLess a b = true) (h2 : jsLess b c = true) :
    jsLess a c = true := by
  cases a <;> cases b <;> cases c <;> simp [jsLess, toNumber] at h1 h2 ⊢ <;>
    first
      | omega
      | exact lexLess_trans _ _ _ h1 h2
      | (rename_i t; cases t <;> simp at h1 h2 ⊢ <;> omega)
      | (rename_i t u; cases t <;> cases u <;> simp at h1 h2 ⊢ <;> omega)
      | (rename_i t u v; cases t <;> cases u <;> cases v <;> simp at h1 h2 ⊢ <;> omega)

/-! ## Search (`filteredLots`, `filteredUsers`) -/

theorem includes_iff_infix (s q : String) : includes s q = true ↔ q.data <:+: s.data := by
  simp only [includes, List.any_eq_true, List.mem_tails, List.isPrefixOf_iff_prefix]
  constructor
  · rintro ⟨t, hsuffix, hprefix⟩
    exact List.infix_iff_prefix_suffix.2 ⟨t, hprefix, hsuffix⟩
  · intro h
    obtain ⟨t, hprefix, hsuffix⟩ := List.infix_iff_prefix_suffix.1 h
    exact ⟨t, hsuffix, hprefix⟩

theorem filteredUsers_fst (host : Host) (s : UsersState) :
    (filteredUsers host s).1 =
      arraySort (compareUsers host s.sortField s.sortOrder)
        (s.users.filter (userSelected host s.searchTerm)) := by
  unfold filteredUsers userSelected isBlank
  by_cases h : truthy (trim s.searchTerm) = true
  · simp [h]
  · simp [h]

/-- C1, as amended. A lot is in `filteredLots` exactly when it is in `lots` and the search
term is blank, or its lower-cased `lot_name` contains the lower-cased term, or its pincode
text as stored contains the lower-cased term. A user is in the result of `filteredUsers`
exactly when it is in `users` and the term is blank, or its `full_name`, `username` or
`address` contains the term case-insensitively, or its pincode text as stored contains the
lower-cased term. -/
theorem filtered_membership (host : Host) :
    (∀ (s : DashboardState) (lot : Lot),
      lot ∈ filteredLots host s ↔
        lot ∈ s.lots ∧
          (isBlank s.searchTerm = true ∨
            containsIgnoringCase host lot.lot_name s.searchTerm = true ∨
            includes lot.pincode (host.toLowerCase s.searchTerm) = true)) ∧
    (∀ (s : UsersState) (user : User),
      user ∈ (filteredUsers host s).1 ↔
        user ∈ s.users ∧
          (isBlank s.searchTerm = true ∨
            (∃ n, user.full_name = some n ∧
              containsIgnoringCase host n s.searchTerm = true) ∨
            containsIgnoringCase host user.username s.searchTerm = true ∨
            includes user.pincode (host.toLowerCase s.searchTerm) = true ∨
            (∃ a, user.address = some a ∧
              containsIgnoringCase host a s.searchTerm = true))) := by
  constructor
  · intro s lot
    unfold filteredLots isBlank containsIgnoringCase
    by_cases h : truthy (trim s.searchTerm) = true
    · simp [h, lotMatches]
    · simp [h]
  · intro s user
    rw [filteredUsers_fst, mem_arraySort, List.mem_filter]
    unfold userSelected userMatches containsIgnoringCase
    cases hn : user.full_name <;> cases ha : user.address <;> simp [or_assoc]

/-- C1, as stated, fails: with a single space as search term the lot `Central` (pincode
`400001`) is in `filteredLots` and the user `asha` is in the result of `filteredUsers`,
though none of their searched fields contains a space. -/
theorem space_term_keeps_records_without_match :
    (centralLot ∈ filteredLots sampleHost spaceSearchDashboard ∧
      containsIgnoringCase sampleHost centralLot.lot_name spaceSearchDashboard.searchTerm = false ∧
      containsIgnoringCase sampleHost centralLot.pincode spaceSearchDashboard.searchTerm = false) ∧
    (ashaUser ∈ (filteredUsers sampleHost spaceSearchUsers).1 ∧
      containsIgnoringCase sampleHost "Asha" spaceSearchUsers.searchTerm = false ∧
      ashaUser.full_name = some "Asha" ∧
      containsIgnoringCase sampleHost ashaUser.username spaceSearchUsers.searchTerm = false ∧
      containsIgnoringCase sampleHost ashaUser.pincode spaceSearchUsers.searchTerm = false ∧
      ashaUser.address = none) := by
  decide

/-- C2: a theorem evaluating the code. After a failed fetch the page holds the two
placeholder records, John first; computing `filteredUsers` with the empty search term and
the default sort leaves `users` with Jane first. -/
theorem filteredUsers_reorders_users :
    failedFetchState.users.map User.username = ["john_doe", "jane_smith"] ∧
    (filteredUsers sampleHost failedFetchState).2.users.map User.username =
      ["jane_smith", "john_doe"] ∧
    (filteredUsers sampleHost failedFetchState).2.users ≠ failedFetchState.users := by
  decide

/-- C3: with the empty search term `filteredLots` is the `lots` collection itself. -/
theorem filteredLots_empty_term (host : Host) (s : DashboardState) :
    filteredLots host { s with searchTerm := "" } = s.lots := by
  simp [filteredLots, trim, truthy]

/-! ## Paging and sorting controls (`changePage`, `sortBy`) -/

theorem totalPages_eq (host : Host) (s : UsersState) :
    totalPages host s =
      ((s.users.filter (userSelected host s.searchTerm)).length + s.itemsPerPage - 1) /
        s.itemsPerPage := by
  rw [totalPages, filteredUsers_fst, arraySort_length]

theorem filteredUsers_snd_of_search (host : Host) (s : UsersState)
    (h : truthy (trim s.searchTerm) = true) : (filteredUsers host s).2 = s := by
  simp [filteredUsers, h]

theorem filteredUsers_snd_eq (host : Host) (s : UsersState) :
    (filteredUsers host s).2 = { s with users := (filteredUsers host s).2.users } ∧
    (filteredUsers host s).2.users.Perm s.users := by
  unfold filteredUsers
  by_cases h : truthy (trim s.searchTerm) = true
  · simp [h]
  · simp only [h, Bool.false_eq_true, if_false]
    exact ⟨trivial, arraySort_perm _ _⟩

theorem totalPages_filteredUsers_snd (host : Host) (s : UsersState) :
    totalPages host (filteredUsers host s).2 = totalPages host s := by
  obtain ⟨hframe, hperm⟩ := filteredUsers_snd_eq host s
  rw [totalPages_eq, totalPages_eq, hframe]
  simp only
  rw [(hperm.filter _).length_eq]

theorem changePage_currentPage (host : Host) (s : UsersState) (page : Int) :
    (changePage host s page).currentPage =
      if 1 ≤ page ∧ page ≤ (totalPages host s : Int) then page else s.currentPage := by
  obtain ⟨hframe, _⟩ := filteredUsers_snd_eq host s
  unfold changePage
  by_cases h1 : page ≥ 1
  · by_cases h2 : page ≤ (totalPages host s : Int)
    · simp [h1, h2]
    · have h1' : 1 ≤ page := h1
      simp only [h1, h2, if_true, if_false, h1', and_false]
      rw [hframe]
  · have h1' : ¬ 1 ≤ page := h1
    simp [h1, h1']

theorem totalPages_changePage (host : Host) (s : UsersState) (page : Int) :
    totalPages host (changePage host s page) = totalPages host s := by
  unfold changePage
  split
  · split
    · rw [← totalPages_filteredUsers_snd host s, totalPages_eq, totalPages_eq]
    · exact totalPages_filteredUsers_snd host s
  · rfl

/-- C4, as stated, fails: after fetching eleven users, opening page 2 and typing `zzz`,
which no user matches, the page is still 2 while `totalPages` is 0, so the current page is
above `max(1, totalPages) = 1`. -/
theorem search_leaves_page_out_of_range :
    Reachable sampleHost strandedState ∧
    strandedState.currentPage = 2 ∧
    totalPages sampleHost strandedState = 0 ∧
    ¬ pageInRange sampleHost strandedState := by
  have hpage : strandedState.currentPage = 2 := by
    simp only [strandedState, setSearchTerm, changePage_currentPage, totalPages_eq]
    decide
  have htotal : totalPages sampleHost strandedState = 0 := by
    rw [totalPages_eq]
    decide
  refine ⟨?_, hpage, htotal, ?_⟩
  · exact Reachable.afterSearch "zzz"
      (Reachable.afterChangePage 2 (Reachable.afterFetch _ _ Reachable.start))
  · rw [pageInRange, hpage, htotal]
    decide

/-- C4, as amended. In every reachable state the current page is at least 1; `sortBy` and
a `changePage` to a page between 1 and `totalPages` leave it within
`[1, max(1, totalPages)]`; an edit of the search term and `fetchUsers` leave the current
page as it was, whatever the new number of pages. -/
theorem currentPage_bounds (host : Host) (s : UsersState) (h : Reachable host s) :
    1 ≤ s.currentPage ∧
    (∀ field, pageInRange host (sortBy s field)) ∧
    (∀ page : Int, 1 ≤ page → page ≤ (totalPages host s : Int) →
      pageInRange host (changePage host s page)) ∧
    (∀ text, (setSearchTerm s text).currentPage = s.currentPage) ∧
    (∀ now response, (fetchUsers host now s response).currentPage = s.currentPage) := by
  refine ⟨?_, ?_, ?_, ?_, ?_⟩
  · induction h with
    | start => decide
    | afterSortBy field _ _ => simp [sortBy]
    | afterChangePage page _ ih =>
      rw [changePage_currentPage]
      split
      · rename_i hp
        exact hp.1
      · exact ih
    | afterSearch text _ ih => exact ih
    | afterFetch now response _ ih =>
      cases response <;> exact ih
  · intro field
    simp [pageInRange, sortBy]
  · intro page h1 h2
    refine ⟨?_, ?_⟩
    · simp [changePage_currentPage, h1, h2]
    · rw [totalPages_changePage, changePage_currentPage]
      simp only [h1, h2, and_self, if_true]
      exact le_trans h2 (le_max_right _ _)
  · intro text
    rfl
  · intro now response
    cases response <;> rfl

/-- The amended C4 at the state a failed fetch leaves. -/
theorem currentPage_bounds_witness :
    Reachable sampleHost failedFetchState ∧
    (1 ≤ failedFetchState.currentPage ∧
    (∀ field, pageInRange sampleHost (sortBy failedFetchState field)) ∧
    (∀ page : Int, 1 ≤ page → page ≤ (totalPages sampleHost failedFetchState : Int) →
      pageInRange sampleHost (changePage sampleHost failedFetchState page)) ∧
    (∀ text, (setSearchTerm failedFetchState text).currentPage = failedFetchState.currentPage) ∧
    (∀ now response,
      (fetchUsers sampleHost now failedFetchState response).currentPage =
        failedFetchState.currentPage)) :=
  ⟨Reachable.afterFetch _ _ Reachable.start,
    currentPage_bounds sampleHost failedFetchState (Reachable.afterFetch _ _ Reachable.start)⟩

theorem changePage_of_search (host : Host) (s : UsersState) (n : Int)
    (h : truthy (trim s.searchTerm) = true) :
    changePage host s n =
      if 1 ≤ n ∧ n ≤ (totalPages host s : Int) then { s with currentPage := n } else s := by
  unfold changePage
  rw [filteredUsers_snd_of_search host s h]
  by_cases h1 : n ≥ 1
  · by_cases h2 : n ≤ (totalPages host s : Int)
    · have h1' : 1 ≤ n := h1
      simp [h1, h2, h1']
    · simp [h1, h2]
  · have h1' : ¬ 1 ≤ n := h1
    simp [h1, h1']

/-- C5: a theorem evaluating the code. The state a failed fetch leaves has one page, John
before Jane, and the current page 1. `changePage(2)` is refused, the current page stays 1,
and yet `users` is left with Jane before John; `changePage(1)` is accepted and leaves
`users` reordered as well; `changePage(0)` leaves the state as it is. -/
theorem changePage_reorders_users :
    totalPages sampleHost failedFetchState = 1 ∧
    failedFetchState.currentPage = 1 ∧
    failedFetchState.users.map User.username = ["john_doe", "jane_smith"] ∧
    (changePage sampleHost failedFetchState 2).currentPage = 1 ∧
    (changePage sampleHost failedFetchState 2).users.map User.username =
      ["jane_smith", "john_doe"] ∧
    changePage sampleHost failedFetchState 2 ≠ failedFetchState ∧
    (changePage sampleHost failedFetchState 1).users.map User.username =
      ["jane_smith", "john_doe"] ∧
    changePage sampleHost failedFetchState 1 ≠ { failedFetchState with currentPage := 1 } ∧
    changePage sampleHost failedFetchState 0 = failedFetchState := by
  decide

/-- C6: `sortBy(f)` on the current sort field keeps the field and flips the direction (asc
to desc, desc to asc), so that a second `sortBy(f)` restores it; on another field it sets
the field to `f` and the direction to asc; either way the current page becomes 1 and
nothing else changes, the users and the search term in particular. -/
theorem sortBy_spec (s : UsersState) (f : String) :
    (s.sortField = f →
      sortBy s f =
        { s with sortOrder := (if s.sortOrder = .asc then .desc else .asc), currentPage := 1 } ∧
      (s.sortOrder = .asc → (sortBy s f).sortOrder = .desc) ∧
      (s.sortOrder = .desc → (sortBy s f).sortOrder = .asc) ∧
      (sortBy s f).sortField = s.sortField ∧
      (sortBy (sortBy s f) f).sortOrder = s.sortOrder) ∧
    (s.sortField ≠ f →
      sortBy s f = { s with sortField := f, sortOrder := .asc, currentPage := 1 }) ∧
    (sortBy s f).currentPage = 1 ∧
    (sortBy s f).users = s.users ∧
    (sortBy s f).searchTerm = s.searchTerm := by
  refine ⟨?_, ?_, ?_, ?_, ?_⟩
  · intro h
    subst h
    cases hs : s.sortOrder <;> simp [sortBy, hs]
  · intro h
    simp [sortBy, h]
  · simp [sortBy]
  · unfold sortBy
    split <;> rfl
  · unfold sortBy
    split <;> rfl

/-! ## Order of `filteredUsers` -/

theorem arraySort_strict {α : Type} (cmp : α → α → Int) (lt : α → α → Bool)
    (hasymm : ∀ a b, lt a b = true → lt b a = false)
    (hlt_trans : ∀ a b c, lt a b = true → lt b c = true → lt a c = true)
    (hcmp : ∀ a b, cmp a b < 0 ↔ lt b a = false)
    (l : List α) (hl : l.Pairwise (fun a b => lt a b = true ∨ lt b a = true)) :
    (arraySort cmp l).Pairwise (fun a b => lt a b = true) := by
  have hsymm : Symmetric (fun a b : α => lt a b = true ∨ lt b a = true) :=
    fun _ _ h => h.symm
  have hcomparable : ∀ a ∈ l, ∀ b ∈ l, a ≠ b → lt a b = true ∨ lt b a = true :=
    fun a ha b hb hab => hl.forall hsymm ha hb hab
  have hsorted : (arraySort cmp l).Pairwise (fun a b => a ∈ l ∧ b ∈ l ∧ lt b a = false) := by
    refine arraySort_pairwise cmp _ (fun x => x ∈ l) ?_ ?_ ?_ l (fun y hy => hy)
    · rintro x y z ⟨hx, hy, hxy⟩ ⟨_, hz, hyz⟩
      refine ⟨hx, hz, ?_⟩
      by_cases hxy' : x = y
      · subst hxy'
        exact hyz
      · rcases hcomparable x hx y hy hxy' with h | h
        · cases hzx : lt z x
          · rfl
          · rw [hlt_trans z x y hzx h] at hyz
            exact absurd hyz (by simp)
        · rw [h] at hxy
          exact absurd hxy (by simp)
    · intro x y hx hy hc
      exact ⟨hx, hy, (hcmp x y).1 hc⟩
    · intro x y hx hy hc
      refine ⟨hy, hx, ?_⟩
      cases hyx : lt y x
      · exact absurd ((hcmp x y).2 hyx) hc
      · exact hasymm y x hyx
  have hall : (arraySort cmp l).Pairwise (fun a b => lt a b = true ∨ lt b a = true) :=
    ((arraySort_perm cmp l).pairwise_iff (fun h => h.symm)).2 hl
  refine (hsorted.and hall).imp ?_
  rintro a b ⟨⟨_, _, h1⟩, h2⟩
  rcases h2 with h2 | h2
  · exact h2
  · rw [h2] at h1
    exact absurd h1 (by simp)

/-- For two records with the same sort key the comparator answers -1, in either direction
and for either argument order. -/
theorem compareUsers_of_equal_keys (host : Host) (field : String) (order : SortOrder)
    (a b : User) (h : sortKey host field a = sortKey host field b) :
    compareUsers host field order a b = -1 := by
  have hirrefl : ∀ k : JSValue, jsLess k k = false := by
    intro k
    cases hk : jsLess k k
    · rfl
    · rw [jsLess_asymm k k hk] at hk
      exact absurd hk (by simp)
  cases order <;> simp [compareUsers, jsGreater, h, hirrefl]

/-- C7: when the sort keys of the users are pairwise distinct and comparable (of any two,
one is less than the other), the result of `filteredUsers` is a permutation of the users
the search keeps, strictly ascending by key for `asc` and strictly descending for `desc`;
for `created_at` one key is less than another exactly when both strings parse and the
first instant is the earlier one. -/
theorem filteredUsers_sorted (host : Host) (s : UsersState)
    (hkeys : s.users.Pairwise (fun a b =>
      jsLess (sortKey host s.sortField a) (sortKey host s.sortField b) = true ∨
      jsLess (sortKey host s.sortField b) (sortKey host s.sortField a) = true)) :
    (filteredUsers host s).1.Perm (s.users.filter (userSelected host s.searchTerm)) ∧
    (s.sortOrder = .asc → (filteredUsers host s).1.Pairwise (fun a b =>
      jsLess (sortKey host s.sortField a) (sortKey host s.sortField b) = true)) ∧
    (s.sortOrder = .desc → (filteredUsers host s).1.Pairwise (fun a b =>
      jsGreater (sortKey host s.sortField a) (sortKey host s.sortField b) = true)) ∧
    (s.sortField = "created_at" → ∀ a b : User,
      (jsLess (sortKey host s.sortField a) (sortKey host s.sortField b) = true ↔
        ∃ ta tb, host.parseDate a.created_at = some ta ∧
          host.parseDate b.created_at = some tb ∧ ta < tb)) := by
  have hfiltered : (s.users.filter (userSelected host s.searchTerm)).Pairwise (fun a b =>
      jsLess (sortKey host s.sortField a) (sortKey host s.sortField b) = true ∨
      jsLess (sortKey host s.sortField b) (sortKey host s.sortField a) = true) :=
    hkeys.sublist (List.filter_sublist _)
  refine ⟨?_, ?_, ?_, ?_⟩
  · rw [filteredUsers_fst]
    exact arraySort_perm _ _
  · intro hasc
    rw [filteredUsers_fst, hasc]
    refine arraySort_strict _
      (fun a b => jsLess (sortKey host s.sortField a) (sortKey host s.sortField b))
      (fun a b => jsLess_asymm _ _) (fun a b c => jsLess_trans _ _ _) ?_ _ hfiltered
    intro a b
    simp only [compareUsers, jsGreater]
    by_cases h : jsLess (sortKey host s.sortField b) (sortKey host s.sortField a) = true <;>
      simp [h]
  · intro hdesc
    rw [filteredUsers_fst, hdesc]
    refine arraySort_strict _
      (fun a b => jsGreater (sortKey host s.sortField a) (sortKey host s.sortField b))
      (fun a b => jsLess_asymm _ _) (fun a b c h1 h2 => jsLess_trans _ _ _ h2 h1) ?_ _ ?_
    · intro a b
      simp only [compareUsers, jsGreater]
      by_cases h : jsLess (sortKey host s.sortField a) (sortKey host s.sortField b) = true <;>
        simp [h]
    · exact hfiltered.imp (fun h => h.symm)
  · intro hfield a b
    rw [hfield]
    simp only [sortKey, User.get, newDate, jsLess, toNumber, if_true]
    cases hpa : host.parseDate a.created_at <;> cases hpb : host.parseDate b.created_at <;>
      simp [hpa, hpb]

/-- C7 at the state a failed fetch leaves: two users with distinct, parseable
`created_at`, sorted newest first. -/
theorem filteredUsers_sorted_witness :
    failedFetchState.users.Pairwise (fun a b =>
      jsLess (sortKey sampleHost failedFetchState.sortField a)
        (sortKey sampleHost failedFetchState.sortField b) = true ∨
      jsLess (sortKey sampleHost failedFetchState.sortField b)
        (sortKey sampleHost failedFetchState.sortField a) = true) ∧
    ((filteredUsers sampleHost failedFetchState).1.Perm
      (failedFetchState.users.filter (userSelected sampleHost failedFetchState.searchTerm)) ∧
    (failedFetchState.sortOrder = .asc →
      (filteredUsers sampleHost failedFetchState).1.Pairwise (fun a b =>
        jsLess (sortKey sampleHost failedFetchState.sortField a)
          (sortKey sampleHost failedFetchState.sortField b) = true)) ∧
    (failedFetchState.sortOrder = .desc →
      (filteredUsers sampleHost failedFetchState).1.Pairwise (fun a b =>
        jsGreater (sortKey sampleHost failedFetchState.sortField a)
          (sortKey sampleHost failedFetchState.sortField b) = true)) ∧
    (failedFetchState.sortField = "created_at" → ∀ a b : User,
      (jsLess (sortKey sampleHost failedFetchState.sortField a)
          (sortKey sampleHost failedFetchState.sortField b) = true ↔
        ∃ ta tb, sampleHost.parseDate a.created_at = some ta ∧
          sampleHost.parseDate b.created_at = some tb ∧ ta < tb))) :=
  ⟨by decide, filteredUsers_sorted sampleHost failedFetchState (by decide)⟩

/-- C8: a theorem evaluating the code. John and Jane have the same pincode and John comes
first in `users`; the comparator answers -1 for the pair in either order, never a tie, and
`filteredUsers` sorted by pincode returns Jane before John. -/
theorem filteredUsers_swaps_equal_keys :
    tiedState.users.map User.username = ["john_doe", "jane_smith"] ∧
    tiedState.users.map (sortKey sampleHost tiedState.sortField) =
      [.string "400001", .string "400001"] ∧
    tiedState.users.map (fun a => tiedState.users.map (fun b =>
      compareUsers sampleHost tiedState.sortField tiedState.sortOrder a b)) =
      [[-1, -1], [-1, -1]] ∧
    (filteredUsers sampleHost tiedState).1.map User.username = ["jane_smith", "john_doe"] := by
  decide

/-! ## Export (`generateCSV`) -/

theorem csvLine_csvRow (host : Host) (i : Nat) (u : User) :
    csvLine host (csvRow host i u) =
      ",".intercalate
        [ quoted (toString ((i : Int) + 1)),
          quoted (match u.full_name with
            | some n => if truthy n then n else "N/A"
            | none => "N/A"),
          quoted u.username,
          quoted u.pincode,
          quoted (match u.address with
            | some a => a
            | none => "undefined"),
          quoted (formatDate host u.created_at) ] := by
  obtain ⟨id, username, full_name, pincode, address, created_at, email⟩ := u
  cases full_name with
  | none => cases address <;> rfl
  | some n =>
    cases ht : truthy n <;> cases address <;>
      simp only [csvLine, csvRow, List.map, quoteField, quoted, toStringJS, optString, ht,
        if_true, Bool.false_eq_true, if_false]

/-- C9: `generateCSV` is the header line followed by one line per user, in the order of
`users`, joined by newlines; a line is its six fields, each coerced to a string and put
between double quotes, joined by commas; and the text is the same whatever the search
term, the sort field, the sort direction and the current page are. -/
theorem generateCSV_spec (host : Host) (s : UsersState) :
    generateCSV host s =
      "\n".intercalate
        ("\"S.No.\",\"Full Name\",\"Username\",\"Pincode\",\"Address\",\"Registered Date\"" ::
          s.users.enum.map (fun p =>
            ",".intercalate
              [ quoted (toString ((p.1 : Int) + 1)),
                quoted (match p.2.full_name with
                  | some n => if truthy n then n else "N/A"
                  | none => "N/A"),
                quoted p.2.username,
                quoted p.2.pincode,
                quoted (match p.2.address with
                  | some a => a
                  | none => "undefined"),
                quoted (formatDate host p.2.created_at) ])) ∧
    (s.users.enum.map (fun p => csvLine host (csvRow host p.1 p.2))).length = s.users.length ∧
    (∀ (term field : String) (order : SortOrder) (page : Int),
      generateCSV host
          { s with searchTerm := term, sortField := field, sortOrder := order,
                   currentPage := page } =
        generateCSV host s) := by
  refine ⟨?_, ?_, ?_⟩
  · unfold generateCSV
    simp only [List.map_cons, List.map_map]
    congr 2
    apply List.map_congr_left
    rintro ⟨i, u⟩ _
    exact csvLine_csvRow host i u
  · rw [List.length_map, List.enum_length]
  · intro term field order page
    unfold generateCSV
    rfl

/-! ## Validation of the lot form (`saveLot`) -/

/-- C10: when `number_of_spots` does not parse to an integer, or parses to one below 1,
`saveLot` leaves the whole state as it is (the lots and the form in particular), whatever
the mode, and its only effect is the validation alert: no request is made. -/
theorem saveLot_rejects_invalid_spots (host : Host) (s : DashboardState)
    (response : SaveResponse)
    (h : parseInt s.lotForm.number_of_spots = none ∨
      ∃ n, parseInt s.lotForm.number_of_spots = some n ∧ n < 1) :
    (saveLot host s response).1 = s ∧
    (saveLot host s response).2 = [Effect.alert "Please enter a valid number of spots"] ∧
    (∀ method url body, Effect.request method url body ∉ (saveLot host s response).2) := by
  have hsave : saveLot host s response =
      (s, [Effect.alert "Please enter a valid number of spots"]) := by
    unfold saveLot
    rcases h with h | ⟨n, h, hn⟩
    · simp [h]
    · simp [h, hn]
  rw [hsave]
  simp

/-- C10 at the create dialog holding `0` spots, for a request that would have succeeded. -/
theorem saveLot_rejects_invalid_spots_witness :
    (parseInt zeroSpotsDashboard.lotForm.number_of_spots = none ∨
      ∃ n, parseInt zeroSpotsDashboard.lotForm.number_of_spots = some n ∧ n < 1) ∧
    ((saveLot sampleHost zeroSpotsDashboard .ok).1 = zeroSpotsDashboard ∧
    (saveLot sampleHost zeroSpotsDashboard .ok).2 =
      [Effect.alert "Please enter a valid number of spots"] ∧
    (∀ method url body,
      Effect.request method url body ∉ (saveLot sampleHost zeroSpotsDashboard .ok).2)) :=
  ⟨Or.inr ⟨0, by decide, by decide⟩,
    saveLot_rejects_invalid_spots sampleHost zeroSpotsDashboard .ok
      (Or.inr ⟨0, by decide, by decide⟩)⟩

/-! ## Failures of the dashboard's requests (`deleteLot`, `fetchLots`, `saveLot`) -/

/-- C11: a theorem evaluating the code. When the user confirms and the response is not OK,
`deleteLot` leaves the state as it is, asks for no reload and shows `Cannot delete lot.
Make sure all spots are empty.`; when the same request fails in transport it shows no
message at all, the rejection is left unhandled. -/
theorem deleteLot_shows_only_the_rejection_message (s : DashboardState) (id : Int) :
    deleteLot s id true .notOk =
      (s, [.confirm "Are you sure you want to delete this parking lot?",
           .request "DELETE" ("/admin/lots/" ++ toString id) none,
           .alert "Cannot delete lot. Make sure all spots are empty."]) ∧
    Effect.reload ∉ (deleteLot s id true .notOk).2 ∧
    (deleteLot s id true .failed).1 = s ∧
    (∀ message, Effect.alert message ∉ (deleteLot s id true .failed).2) ∧
    Effect.unhandledRejection ∈ (deleteLot s id true .failed).2 := by
  simp [deleteLot]

/-- C12: a theorem evaluating the code. A transport failure of the request of `fetchLots`,
of a spots request inside its loop, or of the request of `deleteLot` ends in an unhandled
rejection with no message shown; `saveLot` catches it and shows `Error saving lot`. -/
theorem transport_failure_is_not_caught (s : DashboardState) (id : Int) :
    fetchLots s .failed = (s, [.request "GET" "/admin/lots" none, .unhandledRejection]) ∧
    (fetchLots s (.ok [(centralLot, .failed)])).2 =
      [.request "GET" "/admin/lots" none, .request "GET" "/admin/spots/1" none,
       .unhandledRejection] ∧
    (deleteLot s id true .failed).2 =
      [.confirm "Are you sure you want to delete this parking lot?",
       .request "DELETE" ("/admin/lots/" ++ toString id) none, .unhandledRejection] ∧
    (∀ message, Effect.alert message ∉ (fetchLots s .failed).2 ∧
      Effect.alert message ∉ (fetchLots s (.ok [(centralLot, .failed)])).2 ∧
      Effect.alert message ∉ (deleteLot s id true .failed).2) ∧
    Effect.alert "Error saving lot" ∈ (saveLot sampleHost validFormDashboard .failed).2 ∧
    Effect.unhandledRejection ∉ (saveLot sampleHost validFormDashboard .failed).2 := by
  refine ⟨rfl, ?_, ?_, ?_, ?_, ?_⟩
  · rfl
  · simp [deleteLot]
  · intro message
    refine ⟨?_, ?_, ?_⟩
    · simp [fetchLots]
    · have h : (fetchLots s (.ok [(centralLot, .failed)])).2 =
          [.request "GET" "/admin/lots" none, .request "GET" "/admin/spots/1" none,
           .unhandledRejection] := rfl
      rw [h]
      simp
    · simp [deleteLot]
  · decide
  · decide

/-- C13: for a form whose number of spots parses to an integer of at least 1, every
outcome of the save request but the OK one (a status that is not OK, a failure in
transport, a body that is not JSON) leaves the whole state as it is, shows `Error saving
lot` and asks for no reload; the OK outcome asks for a reload and resets the form; so a
reload is asked for only when the response is OK. -/
theorem saveLot_failure_keeps_state (host : Host) (s : DashboardState) (n : Int)
    (hparse : parseInt s.lotForm.number_of_spots = some n) (hvalid : 1 ≤ n) :
    (∀ response, response ≠ SaveResponse.ok →
      (saveLot host s response).1 = s ∧
      Effect.alert "Error saving lot" ∈ (saveLot host s response).2 ∧
      Effect.reload ∉ (saveLot host s response).2) ∧
    ((saveLot host s .ok).1 = resetForm s ∧ Effect.reload ∈ (saveLot host s .ok).2 ∧
      (saveLot host s .ok).1.lots = s.lots ∧
      (saveLot host s .ok).1.isEditMode = s.isEditMode ∧
      (saveLot host s .ok).1.lotForm = LotForm.blank) ∧
    (∀ response, Effect.reload ∈ (saveLot host s response).2 → response = SaveResponse.ok) := by
  have hnot : ¬ n < 1 := by omega
  refine ⟨?_, ?_, ?_⟩
  · intro response hresponse
    cases response <;> simp [saveLot, hparse, hnot] at hresponse ⊢
  · simp [saveLot, hparse, hnot, resetForm]
  · intro response
    cases response <;> simp [saveLot, hparse, hnot]

/-- C13 at the create dialog holding `10` spots. -/
theorem saveLot_failure_keeps_state_witness :
    (parseInt validFormDashboard.lotForm.number_of_spots = some 10 ∧ (1 : Int) ≤ 10) ∧
    ((∀ response, response ≠ SaveResponse.ok →
      (saveLot sampleHost validFormDashboard response).1 = validFormDashboard ∧
      Effect.alert "Error saving lot" ∈ (saveLot sampleHost validFormDashboard response).2 ∧
      Effect.reload ∉ (saveLot sampleHost validFormDashboard response).2) ∧
    ((saveLot sampleHost validFormDashboard .ok).1 = resetForm validFormDashboard ∧
      Effect.reload ∈ (saveLot sampleHost validFormDashboard .ok).2 ∧
      (saveLot sampleHost validFormDashboard .ok).1.lots = validFormDashboard.lots ∧
      (saveLot sampleHost validFormDashboard .ok).1.isEditMode = validFormDashboard.isEditMode ∧
      (saveLot sampleHost validFormDashboard .ok).1.lotForm = LotForm.blank) ∧
    (∀ response, Effect.reload ∈ (saveLot sampleHost validFormDashboard response).2 →
      response = SaveResponse.ok)) :=
  ⟨⟨by decide, by decide⟩,
    saveLot_failure_keeps_state sampleHost validFormDashboard 10 (by decide) (by decide)⟩

/-! ## `logout` -/

/-- C14, as stated, fails: on a response that is not OK the `logout` of
`Admin_Dashboard.js` shows `Logout failed. Please try again.` and the `logout` of
`Admin_Summary.js` does nothing; neither redirects. -/
theorem logout_not_ok_stays_on_page :
    AdminDashboard.logout .notOk =
      [.request "POST" "/logout" none, .alert "Logout failed. Please try again."] ∧
    AdminSummary.logout .notOk = [.request "POST" "/logout" none] ∧
    (∀ url, Effect.redirect url ∉ AdminDashboard.logout .notOk) ∧
    (∀ url, Effect.redirect url ∉ AdminSummary.logout .notOk) := by
  simp [AdminDashboard.logout, AdminSummary.logout]

/-- C14, as amended. The `logout` of `Users.js` redirects to `/` for every outcome of the
request; the `logout` of `Admin_Dashboard.js` and of `Admin_Summary.js` redirect to `/`
exactly when the response is OK or the request fails in transport. -/
theorem logout_redirects (response : RequestOutcome) :
    Effect.redirect "/" ∈ Users.logout response ∧
    (Effect.redirect "/" ∈ AdminDashboard.logout response ↔ response ≠ .notOk) ∧
    (Effect.redirect "/" ∈ AdminSummary.logout response ↔ response ≠ .notOk) := by
  cases response <;> simp [Users.logout, AdminDashboard.logout, AdminSummary.logout]

/-! ## Spot counts (`fetchLots`, `calculateStats`) -/

/-- C15: a theorem evaluating the code. For a lot whose spots request returns one reserved
and one free spot, `fetchLots` stores the two spots with the letters `O` and `A`, sets
`total_spots` to 2, and sets both `occupied_spots` and `available_spots` to 0. -/
theorem fetchLots_counts_no_spot :
    (fetchLots DashboardState.initial (.ok [(centralLot, .ok twoSpots)])).1.lots.map
        (fun lot => (lot.spots.map (fun spots => spots.map Spot.status), lot.total_spots,
          lot.occupied_spots, lot.available_spots)) =
      [(some [some "O", some "A"], some 2, some 0, some 0)] ∧
    (twoSpots.filter (fun s => s.is_reserved)).length = 1 ∧
    (twoSpots.filter (fun s => !s.is_reserved)).length = 1 := by
  decide

theorem foldl_add_eq_sum {α : Type} (f : α → Int) (l : List α) :
    ∀ init : Int, l.foldl (fun sum x => sum + f x) init = init + (l.map f).sum := by
  induction l with
  | nil => intro init; simp
  | cons a as ih =>
    intro init
    rw [List.foldl_cons, ih, List.map_cons, List.sum_cons]
    omega

/-- C16: after `calculateStats`, `totalSpots` is the sum of `total_spots` over the lots and
`occupiedSpots` the sum of `occupied_spots`, a missing count counting as 0; the lots are
left as they are; the two totals do not depend on their previous values; and
`occupiedSpots ≤ totalSpots` when every lot has `occupied_spots ≤ total_spots`. -/
theorem calculateStats_sums (s : DashboardState) :
    s.calculateStats.totalSpots = (s.lots.map (fun lot => lot.total_spots.getD 0)).sum ∧
    s.calculateStats.occupiedSpots = (s.lots.map (fun lot => lot.occupied_spots.getD 0)).sum ∧
    s.calculateStats.lots = s.lots ∧
    (∀ total occupied : Int,
      DashboardState.calculateStats { s with totalSpots := total, occupiedSpots := occupied } =
        s.calculateStats) ∧
    ((∀ lot ∈ s.lots, lot.occupied_spots.getD 0 ≤ lot.total_spots.getD 0) →
      s.calculateStats.occupiedSpots ≤ s.calculateStats.totalSpots) := by
  have htotal : s.calculateStats.totalSpots =
      (s.lots.map (fun lot => lot.total_spots.getD 0)).sum := by
    simp only [DashboardState.calculateStats]
    rw [foldl_add_eq_sum]
    omega
  have hoccupied : s.calculateStats.occupiedSpots =
      (s.lots.map (fun lot => lot.occupied_spots.getD 0)).sum := by
    simp only [DashboardState.calculateStats]
    rw [foldl_add_eq_sum]
    omega
  refine ⟨htotal, hoccupied, rfl, fun _ _ => rfl, ?_⟩
  intro h
  rw [htotal, hoccupied]
  exact List.sum_le_sum h

/-! ## Pages (`totalPages`, `paginatedUsers`, `visiblePages`) -/

theorem flatMap_chunks {α : Type} (k : Nat) :
    ∀ (n : Nat) (l : List α), l.length ≤ n * k →
      (List.range n).flatMap (fun i => (l.drop (i * k)).take k) = l := by
  intro n
  induction n with
  | zero =>
    intro l hl
    have : l = [] := List.length_eq_zero.1 (by omega)
    simp [this]
  | succ n ih =>
    intro l hl
    rw [List.range_succ_eq_map, List.flatMap_cons, List.flatMap_map]
    have hrest : (List.range n).flatMap (fun i => ((l.drop k).drop (i * k)).take k) = l.drop k := by
      apply ih
      rw [List.length_drop]
      rw [Nat.succ_mul] at hl
      omega
    have hfun : (fun i => (l.drop ((i + 1) * k)).take k) =
        (fun i => ((l.drop k).drop (i * k)).take k) := by
      funext i
      rw [List.drop_drop, Nat.succ_mul, Nat.add_comm k (i * k)]
    simp only [Nat.succ_eq_add_one, Nat.zero_mul, List.drop_zero]
    rw [hfun, hrest, List.take_append_drop]

theorem filteredUsers_fst_currentPage (host : Host) (s : UsersState) (page : Int) :
    (filteredUsers host { s with currentPage := page }).1 = (filteredUsers host s).1 := by
  rw [filteredUsers_fst, filteredUsers_fst]

theorem totalPages_bounds (host : Host) (s : UsersState) (hsize : 0 < s.itemsPerPage) :
    (filteredUsers host s).1.length ≤ totalPages host s * s.itemsPerPage ∧
    totalPages host s * s.itemsPerPage < (filteredUsers host s).1.length + s.itemsPerPage := by
  unfold totalPages
  have h1 := Nat.lt_div_mul_add (a := (filteredUsers host s).1.length + s.itemsPerPage - 1) hsize
  have h2 := Nat.div_mul_le_self ((filteredUsers host s).1.length + s.itemsPerPage - 1)
    s.itemsPerPage
  constructor <;> omega

/-- C17: for a page size of at least 1, `totalPages` is the ceiling of
`length / itemsPerPage` (the one number `t` with `length ≤ t * itemsPerPage <
length + itemsPerPage`); every page from 1 to `totalPages` shows between 1 and
`itemsPerPage` records; and the slices of the pages 1 to `totalPages`, one after the other,
are `filteredUsers`. -/
theorem pages_partition_filteredUsers (host : Host) (s : UsersState)
    (hsize : 0 < s.itemsPerPage) :
    ((filteredUsers host s).1.length ≤ totalPages host s * s.itemsPerPage ∧
      totalPages host s * s.itemsPerPage < (filteredUsers host s).1.length + s.itemsPerPage) ∧
    (∀ p : Nat, 1 ≤ p → p ≤ totalPages host s →
      1 ≤ (paginatedUsers host { s with currentPage := (p : Int) }).length ∧
      (paginatedUsers host { s with currentPage := (p : Int) }).length ≤ s.itemsPerPage) ∧
    (List.range (totalPages host s)).flatMap
        (fun i => paginatedUsers host { s with currentPage := (i : Int) + 1 }) =
      (filteredUsers host s).1 := by
  obtain ⟨hlow, hhigh⟩ := totalPages_bounds host s hsize
  refine ⟨⟨hlow, hhigh⟩, ?_, ?_⟩
  · intro p hp1 hp2
    simp only [paginatedUsers, filteredUsers_fst_currentPage, Int.toNat_ofNat, List.length_take,
      List.length_drop]
    have hmul : (p - 1) * s.itemsPerPage + s.itemsPerPage ≤
        totalPages host s * s.itemsPerPage := by
      have h := Nat.mul_le_mul_right s.itemsPerPage hp2
      have hp : p = (p - 1) + 1 := by omega
      rw [hp, Nat.succ_mul] at h
      exact h
    omega
  · refine Eq.trans ?_
      (flatMap_chunks s.itemsPerPage (totalPages host s) (filteredUsers host s).1 hlow)
    congr 1
    funext i
    simp only [paginatedUsers, filteredUsers_fst_currentPage]
    have : ((i : Int) + 1).toNat - 1 = i := by omega
    rw [this]

/-- C17 at the page holding eleven users, ten to a page. -/
theorem pages_partition_filteredUsers_witness :
    0 < elevenUsersState.itemsPerPage ∧
    (((filteredUsers sampleHost elevenUsersState).1.length ≤
        totalPages sampleHost elevenUsersState * elevenUsersState.itemsPerPage ∧
      totalPages sampleHost elevenUsersState * elevenUsersState.itemsPerPage <
        (filteredUsers sampleHost elevenUsersState).1.length + elevenUsersState.itemsPerPage) ∧
    (∀ p : Nat, 1 ≤ p → p ≤ totalPages sampleHost elevenUsersState →
      1 ≤ (paginatedUsers sampleHost { elevenUsersState with currentPage := (p : Int) }).length ∧
      (paginatedUsers sampleHost { elevenUsersState with currentPage := (p : Int) }).length ≤
        elevenUsersState.itemsPerPage) ∧
    (List.range (totalPages sampleHost elevenUsersState)).flatMap
        (fun i => paginatedUsers sampleHost { elevenUsersState with currentPage := (i : Int) + 1 }) =
      (filteredUsers sampleHost elevenUsersState).1) :=
  ⟨by decide, pages_partition_filteredUsers sampleHost elevenUsersState (by decide)⟩

/-- C18: when the current page is between 1 and `totalPages`, `visiblePages` is the run
`start, start + 1, ..., end` with `start = max(1, currentPage - 2)` and
`end = min(totalPages, currentPage + 2)`; it holds the current page and at most 5 entries,
and for each of its entries `p`, `1 ≤ p ≤ totalPages` and `changePage(p)` is accepted: it
sets the current page to `p`, in the state that the read of `filteredUsers` leaves. When
`totalPages` is 0 it is empty. -/
theorem visiblePages_spec (host : Host) (s : UsersState) :
    (1 ≤ s.currentPage → s.currentPage ≤ (totalPages host s : Int) →
      (visiblePages host s).length =
        (min (totalPages host s : Int) (s.currentPage + 2) - max 1 (s.currentPage - 2) + 1).toNat ∧
      (∀ i : Nat, i < (visiblePages host s).length →
        (visiblePages host s)[i]? = some (max 1 (s.currentPage - 2) + (i : Int))) ∧
      (∀ p : Int, p ∈ visiblePages host s ↔
        max 1 (s.currentPage - 2) ≤ p ∧ p ≤ min (totalPages host s : Int) (s.currentPage + 2)) ∧
      s.currentPage ∈ visiblePages host s ∧
      (visiblePages host s).length ≤ 5 ∧
      (∀ p ∈ visiblePages host s, 1 ≤ p ∧ p ≤ (totalPages host s : Int) ∧
        (changePage host s p).currentPage = p ∧
        changePage host s p = { (filteredUsers host s).2 with currentPage := p })) ∧
    (totalPages host s = 0 → visiblePages host s = []) := by
  have hmem : ∀ p : Int, p ∈ visiblePages host s ↔
      max 1 (s.currentPage - 2) ≤ p ∧ p ≤ min (totalPages host s : Int) (s.currentPage + 2) := by
    intro p
    simp only [visiblePages, List.mem_map, List.mem_range]
    constructor
    · rintro ⟨i, hi, rfl⟩
      omega
    · intro h
      exact ⟨(p - max 1 (s.currentPage - 2)).toNat, by omega, by omega⟩
  have hlen : (visiblePages host s).length =
      (min (totalPages host s : Int) (s.currentPage + 2) - max 1 (s.currentPage - 2) + 1).toNat := by
    simp [visiblePages]
  refine ⟨?_, ?_⟩
  · intro h1 h2
    refine ⟨hlen, ?_, hmem, ?_, ?_, ?_⟩
    · intro i hi
      rw [hlen] at hi
      simp only [visiblePages, List.getElem?_map]
      rw [List.getElem?_range hi]
      rfl
    · rw [hmem]
      omega
    · rw [hlen]
      omega
    · intro p hp
      rw [hmem] at hp
      have hp1 : 1 ≤ p := by omega
      have hp2 : p ≤ (totalPages host s : Int) := by omega
      refine ⟨hp1, hp2, ?_, ?_⟩
      · simp [changePage_currentPage, hp1, hp2]
      · simp [changePage, hp1, hp2]
  · intro h0
    simp only [visiblePages, h0]
    have : (min ((0 : Nat) : Int) (s.currentPage + 2) - max 1 (s.currentPage - 2) + 1).toNat = 0 := by
      omega
    rw [this]
    rfl

/-- C18 at page 2 of the eleven users: the visible pages are 1 and 2. -/
theorem visiblePages_spec_witness :
    (1 ≤ ({ elevenUsersState with currentPage := 2 } : UsersState).currentPage ∧
      ({ elevenUsersState with currentPage := 2 } : UsersState).currentPage ≤
        (totalPages sampleHost { elevenUsersState with currentPage := 2 } : Int)) ∧
    visiblePages sampleHost { elevenUsersState with currentPage := 2 } = [1, 2] ∧
    (∀ p ∈ visiblePages sampleHost { elevenUsersState with currentPage := 2 },
      1 ≤ p ∧ p ≤ (totalPages sampleHost { elevenUsersState with currentPage := 2 } : Int) ∧
      (changePage sampleHost { elevenUsersState with currentPage := 2 } p).currentPage = p ∧
      changePage sampleHost { elevenUsersState with currentPage := 2 } p =
        { (filteredUsers sampleHost { elevenUsersState with currentPage := 2 }).2 with
          currentPage := p }) := by
  have htotal : totalPages sampleHost { elevenUsersState with currentPage := 2 } = 2 := by
    rw [totalPages_eq]
    decide
  have h1 : 1 ≤ ({ elevenUsersState with currentPage := 2 } : UsersState).currentPage := by
    decide
  have h2 : ({ elevenUsersState with currentPage := 2 } : UsersState).currentPage ≤
      (totalPages sampleHost { elevenUsersState with currentPage := 2 } : Int) := by
    rw [htotal]
    decide
  refine ⟨⟨h1, h2⟩, ?_, ?_⟩
  · simp only [visiblePages, htotal]
    decide
  · exact ((visiblePages_spec sampleHost { elevenUsersState with currentPage := 2 }).1 h1 h2).2.2.2.2.2

/-! ## Parking time (`calculateDuration`) -/

/-- C19: for a timestamp that is present and denotes the instant `start`, with `d` the
whole minutes elapsed (`60000 * d ≤ now - start < 60000 * (d + 1)`), `calculateDuration`
returns `d min` when `d < 60`, and otherwise `Hh Mm` with `H = d / 60` and `M = d mod 60`,
so that `60 * H + M = d` and `0 ≤ M < 60`; a missing or empty timestamp gives `N/A`. -/
theorem calculateDuration_spec (host : Host) (now : Int) :
    (∀ (text : String) (start : Int), truthy text = true → host.parseDate text = some start →
      (60000 * ((now - start) / 60000) ≤ now - start ∧
        now - start < 60000 * ((now - start) / 60000 + 1)) ∧
      ((now - start) / 60000 < 60 →
        calculateDuration host now (some text) = toString ((now - start) / 60000) ++ " min") ∧
      (60 ≤ (now - start) / 60000 →
        calculateDuration host now (some text) =
          toString ((now - start) / 60000 / 60) ++ "h " ++
            toString ((now - start) / 60000 % 60) ++ "m" ∧
        60 * ((now - start) / 60000 / 60) + (now - start) / 60000 % 60 =
          (now - start) / 60000 ∧
        0 ≤ (now - start) / 60000 % 60 ∧ (now - start) / 60000 % 60 < 60)) ∧
    calculateDuration host now none = "N/A" ∧
    calculateDuration host now (some "") = "N/A" := by
  refine ⟨?_, rfl, rfl⟩
  intro text start hpresent hparse
  refine ⟨by omega, ?_, ?_⟩
  · intro hd
    simp [calculateDuration, hpresent, hparse, hd]
  · intro hd
    have hnot : ¬ (now - start) / 60000 < 60 := by omega
    refine ⟨?_, by omega, by omega, by omega⟩
    simp [calculateDuration, hpresent, hparse, hnot]

/-- C19 for a spot taken at 10:30 and looked at 125 minutes and 5 seconds later: the
duration reads `2h 5m`. -/
theorem calculateDuration_spec_witness :
    (truthy "2024-01-15T10:30:00Z" = true ∧
      sampleHost.parseDate "2024-01-15T10:30:00Z" = some 1705314600000) ∧
    calculateDuration sampleHost 1705322105000 (some "2024-01-15T10:30:00Z") = "2h 5m" ∧
    (60 ≤ (1705322105000 - 1705314600000 : Int) / 60000 →
      calculateDuration sampleHost 1705322105000 (some "2024-01-15T10:30:00Z") =
        toString ((1705322105000 - 1705314600000 : Int) / 60000 / 60) ++ "h " ++
          toString ((1705322105000 - 1705314600000 : Int) / 60000 % 60) ++ "m" ∧
      60 * ((1705322105000 - 1705314600000 : Int) / 60000 / 60) +
          (1705322105000 - 1705314600000 : Int) / 60000 % 60 =
        (1705322105000 - 1705314600000 : Int) / 60000 ∧
      0 ≤ (1705322105000 - 1705314600000 : Int) / 60000 % 60 ∧
      (1705322105000 - 1705314600000 : Int) / 60000 % 60 < 60) :=
  ⟨⟨by decide, by decide⟩, by decide,
    ((calculateDuration_spec sampleHost 1705322105000).1 "2024-01-15T10:30:00Z" 1705314600000
      (by decide) (by decide)).2.2⟩

end ParkEasy
